import Mathlib

/-!
A verification development for the quant QUIC transport core, centred on the
frame codec and receive path in `lib/src/frame.c`.  C functions are embedded
shallowly as Lean functions; machine integers (`uint_t` = `uint64_t`,
`uint16_t`) become `Nat` with explicit `% 2 ^ 64` where unsigned wraparound
matters, and fallible paths return `Except`/sum results whose error component
is the QUIC transport error code passed to `err_close`.

Definitions carry the source names where Lean allows it.  Components of the
repository that are referenced by `frame.c` but whose definitions are not part
of the source tree here (the varint codec in `marshall.c`, the error-code and
frame-type constants in `quic.h`/`frame.h`, and a few stream/recovery/conn
helpers) are modelled from the specification; each such definition carries a
doc comment starting with `Modelled from the spec:`.
-/

/-! ## Frame types, error codes, epochs -/

/-- Modelled from the spec: frame-type codes (`frame.h` is not under `src/`);
the values are the first-byte codes of the spec's frame-type table (§6). -/
def FRM_PAD : Nat := 0x00
/-- Modelled from the spec: PING frame type (§6). -/
def FRM_PNG : Nat := 0x01
/-- Modelled from the spec: ACK frame type (§6). -/
def FRM_ACK : Nat := 0x02
/-- Modelled from the spec: ACK_ECN frame type (§6). -/
def FRM_ACE : Nat := 0x03
/-- Modelled from the spec: RESET_STREAM frame type (§6). -/
def FRM_RST : Nat := 0x04
/-- Modelled from the spec: STOP_SENDING frame type (§6). -/
def FRM_STP : Nat := 0x05
/-- Modelled from the spec: CRYPTO frame type (§6). -/
def FRM_CRY : Nat := 0x06
/-- Modelled from the spec: NEW_TOKEN frame type (§6). -/
def FRM_TOK : Nat := 0x07
/-- Modelled from the spec: STREAM frame base type 0x08; low bits FIN|LEN|OFF (§6, §4.1). -/
def FRM_STR : Nat := 0x08
/-- Modelled from the spec: STREAM frame type variant 0x09 (§6). -/
def FRM_STR_09 : Nat := 0x09
/-- Modelled from the spec: STREAM frame type variant 0x0a (§6). -/
def FRM_STR_0a : Nat := 0x0a
/-- Modelled from the spec: STREAM frame type variant 0x0b (§6). -/
def FRM_STR_0b : Nat := 0x0b
/-- Modelled from the spec: STREAM frame type variant 0x0c (§6). -/
def FRM_STR_0c : Nat := 0x0c
/-- Modelled from the spec: STREAM frame type variant 0x0d (§6). -/
def FRM_STR_0d : Nat := 0x0d
/-- Modelled from the spec: STREAM frame type variant 0x0e (§6). -/
def FRM_STR_0e : Nat := 0x0e
/-- Modelled from the spec: STREAM frame type variant 0x0f (§6). -/
def FRM_STR_0f : Nat := 0x0f
/-- Modelled from the spec: MAX_DATA frame type (§6). -/
def FRM_MCD : Nat := 0x10
/-- Modelled from the spec: MAX_STREAM_DATA frame type (§6). -/
def FRM_MSD : Nat := 0x11
/-- Modelled from the spec: MAX_STREAMS (bidi) frame type (§6). -/
def FRM_MSB : Nat := 0x12
/-- Modelled from the spec: MAX_STREAMS (uni) frame type (§6). -/
def FRM_MSU : Nat := 0x13
/-- Modelled from the spec: DATA_BLOCKED frame type (§6). -/
def FRM_CDB : Nat := 0x14
/-- Modelled from the spec: STREAM_DATA_BLOCKED frame type (§6). -/
def FRM_SDB : Nat := 0x15
/-- Modelled from the spec: STREAMS_BLOCKED (bidi) frame type (§6). -/
def FRM_SBB : Nat := 0x16
/-- Modelled from the spec: STREAMS_BLOCKED (uni) frame type (§6). -/
def FRM_SBU : Nat := 0x17
/-- Modelled from the spec: NEW_CONNECTION_ID frame type (§6). -/
def FRM_CID : Nat := 0x18
/-- Modelled from the spec: RETIRE_CONNECTION_ID frame type (§6). -/
def FRM_RTR : Nat := 0x19
/-- Modelled from the spec: PATH_CHALLENGE frame type (§6). -/
def FRM_PCL : Nat := 0x1a
/-- Modelled from the spec: PATH_RESPONSE frame type (§6). -/
def FRM_PRP : Nat := 0x1b
/-- Modelled from the spec: CONNECTION_CLOSE (quic) frame type (§6). -/
def FRM_CLQ : Nat := 0x1c
/-- Modelled from the spec: CONNECTION_CLOSE (app) frame type (§6). -/
def FRM_CLA : Nat := 0x1d
/-- Modelled from the spec: HANDSHAKE_DONE frame type (§6). -/
def FRM_HSD : Nat := 0x1e
/-- Modelled from the spec: one past the largest defined frame type; the defined
frame types are 0x00..0x1e (§6), so the legality bitset covers `t < 0x1f`. -/
def FRM_MAX : Nat := 0x1f

/-- STREAM frame type flag FIN (§4.1: `FIN=0x01`). -/
def F_STREAM_FIN : Nat := 0x01
/-- STREAM frame type flag LEN (§4.1: `LEN=0x02`). -/
def F_STREAM_LEN : Nat := 0x02
/-- STREAM frame type flag OFF (§4.1: `OFF=0x04`). -/
def F_STREAM_OFF : Nat := 0x04

/-- Modelled from the spec: transport error codes (`quic.h` is not under
`src/`); §6 gives the registry `NO_ERROR (0x0) … PROTOCOL_VIOLATION (0xa)`. -/
def ERR_NONE : Nat := 0x0
/-- Modelled from the spec: INTERNAL error code (§6). -/
def ERR_INTERNAL : Nat := 0x1
/-- Modelled from the spec: FLOW_CONTROL error code (§6). -/
def ERR_FLOW_CONTROL : Nat := 0x3
/-- Modelled from the spec: the source's `ERR_STREAM_ID` is the stream-limit
code: §6's registry lists `STREAM_LIMIT (0x4)` (draft-27's
STREAM_LIMIT_ERROR), the code for a stream ID beyond the permitted maximum,
distinct from `PROTOCOL_VIOLATION (0xa)`. -/
def ERR_STREAM_ID : Nat := 0x4
/-- Modelled from the spec: STREAM_STATE error code (§6). -/
def ERR_STREAM_STATE : Nat := 0x5
/-- Modelled from the spec: FRAME_ENCODING error code (§6). -/
def ERR_FRAME_ENC : Nat := 0x7
/-- Modelled from the spec: CONNECTION_ID_LIMIT error code (§6). -/
def ERR_CONNECTION_ID_LIMIT : Nat := 0x9
/-- Modelled from the spec: PROTOCOL_VIOLATION error code (§6). -/
def ERR_PROTOCOL_VIOLATION : Nat := 0xa

/-- The four epochs / packet-number spaces a packet can belong to
(`ep_init`, `ep_0rtt`, `ep_hshk`, `ep_data`). -/
inductive epoch : Type
  | ep_init
  | ep_0rtt
  | ep_hshk
  | ep_data
deriving DecidableEq

open epoch

/-! ## Variable-length integers

Modelled from the spec: the varint codec (`marshall.c`) is not under `src/`.
§6: a two-bit prefix `00/01/10/11` selects a 1/2/4/8-byte encoding, the
remaining bits are big-endian; §4.1/§8: encoding uses the minimal length. -/

/-- Modelled from the spec: minimal-length QUIC varint encoding of `v < 2^62`
(§6), as the source's `encv` produces on the wire. -/
def encv (v : Nat) : List Nat :=
  if v < 64 then [v]
  else if v < 16384 then [64 + v / 256, v % 256]
  else if v < 1073741824 then
    [128 + v / 16777216, v / 65536 % 256, v / 256 % 256, v % 256]
  else
    [192 + v / 72057594037927936, v / 281474976710656 % 256,
     v / 1099511627776 % 256, v / 4294967296 % 256, v / 16777216 % 256,
     v / 65536 % 256, v / 256 % 256, v % 256]

/-- Modelled from the spec: QUIC varint decoding (§6); returns the value and
the remaining bytes, or `none` when the buffer is truncated (the source's
`decv` returning `false`). -/
def decv : List Nat → Option (Nat × List Nat)
  | [] => none
  | b :: bs =>
    match b / 64 with
    | 0 => some (b % 64, bs)
    | 1 =>
      match bs with
      | b1 :: r => some (b % 64 * 256 + b1, r)
      | [] => none
    | 2 =>
      match bs with
      | b1 :: b2 :: b3 :: r =>
        some (b % 64 * 16777216 + b1 * 65536 + b2 * 256 + b3, r)
      | _ => none
    | _ =>
      match bs with
      | b1 :: b2 :: b3 :: b4 :: b5 :: b6 :: b7 :: r =>
        some (b % 64 * 72057594037927936 + b1 * 281474976710656 +
              b2 * 1099511627776 + b3 * 4294967296 + b4 * 16777216 +
              b5 * 65536 + b6 * 256 + b7, r)
      | _ => none

/-- Equality of `Except` results is decidable, so concrete runs of the
embedded fallible functions can be checked by `decide`. -/
instance {e a : Type} [DecidableEq e] [DecidableEq a] :
    DecidableEq (Except e a) := fun x y =>
  match x, y with
  | Except.ok v, Except.ok w =>
    if h : v = w then isTrue (by rw [h])
    else isFalse (fun hh => h (Except.ok.inj hh))
  | Except.error v, Except.error w =>
    if h : v = w then isTrue (by rw [h])
    else isFalse (fun hh => h (Except.error.inj hh))
  | Except.ok _, Except.error _ => isFalse (fun hh => Except.noConfusion hh)
  | Except.error _, Except.ok _ => isFalse (fun hh => Except.noConfusion hh)

/-! ## Per-epoch frame legality (`dec_frames`, frame.c:1171-1202) -/

/-- The static per-epoch frame legality table `frame_ok` of `dec_frames`
(frame.c:1171-1195), transcribed bit for bit. -/
def frame_ok : epoch → Nat → Bool
  | ep_init, t =>
    [FRM_PAD, FRM_PNG, FRM_CRY, FRM_CLQ, FRM_CLA, FRM_ACK, FRM_ACE].contains t
  | ep_0rtt, t =>
    [FRM_PAD, FRM_PNG, FRM_RST, FRM_STP, FRM_TOK, FRM_STR, FRM_STR_09,
     FRM_STR_0a, FRM_STR_0b, FRM_STR_0c, FRM_STR_0d, FRM_STR_0e, FRM_STR_0f,
     FRM_MCD, FRM_MSD, FRM_MSB, FRM_MSU, FRM_CDB, FRM_SDB, FRM_SBB, FRM_SBU,
     FRM_CID, FRM_RTR, FRM_PCL, FRM_PRP].contains t
  | ep_hshk, t =>
    [FRM_PAD, FRM_PNG, FRM_CRY, FRM_CLQ, FRM_CLA, FRM_ACK, FRM_ACE].contains t
  | ep_data, t =>
    [FRM_PAD, FRM_PNG, FRM_CRY, FRM_CLQ, FRM_CLA, FRM_ACK, FRM_ACE, FRM_RST,
     FRM_STP, FRM_TOK, FRM_STR, FRM_STR_09, FRM_STR_0a, FRM_STR_0b, FRM_STR_0c,
     FRM_STR_0d, FRM_STR_0e, FRM_STR_0f, FRM_MCD, FRM_MSD, FRM_MSB, FRM_MSU,
     FRM_CDB, FRM_SDB, FRM_SBB, FRM_SBU, FRM_CID, FRM_RTR, FRM_PCL, FRM_PRP,
     FRM_HSD].contains t

/-! ## Stream receive path (`dec_stream_or_crypto_frame`, frame.c:220-459)

The embedding starts from the parsed frame fields (stream ID, offset, payload
bytes, FIN bit): buffer truncation and illegal-length failures of the `decv`
macros are frame-level parse errors orthogonal to the delivery logic.  The
connection context enters as parameters: `clnt` (`is_clnt(c)`), the result of
`get_stream` (`strm?`), membership of the stream ID in `c->clsd_strms`
(`inClsd`), the value of `max_sid(sid, c)` (`maxSid`, whose computation lives
in the stream-engine header that is not under `src/`), and the local
flow-control window `c->tp_in.max_strm_data` (`winMax`). -/

/-- Modelled from the spec: stream states in the order the spec lists them
(§3: "state (idle, open, half-closed-remote, half-closed-local, closed,
reset)"); the source compares states numerically in this order. -/
inductive strm_state : Type
  | strm_idle
  | strm_open
  | strm_hcrm
  | strm_hclo
  | strm_clsd
  | strm_rset
deriving DecidableEq

open strm_state

/-- Numeric value of a stream state, for the source's ordered comparison
`m->strm->state <= strm_hcrm`. -/
def strm_state.toNat : strm_state → Nat
  | strm_idle => 0
  | strm_open => 1
  | strm_hcrm => 2
  | strm_hclo => 3
  | strm_clsd => 4
  | strm_rset => 5

/-- One queued chunk of stream data: a `w_iov` together with the stream fields
of its `pkt_meta` (`strm_off`, the `[strm_data_pos, strm_data_pos +
strm_data_len)` payload window — here the byte list itself — and `is_fin`). -/
structure Frag where
  off : Nat
  data : List Nat
  fin : Bool
deriving DecidableEq

/-- Total payload length of a list of fragments. -/
def segsLen (l : List Frag) : Nat := (l.map (fun g => g.data.length)).sum

/-- The receive side of `struct q_stream`: state, in-order receive offset
`in_data_off`, in-order receive queue `in` (`in_q` here), out-of-order buffer
`in_ooo` (kept sorted by offset, as the `ooo_by_off` splay tree is), and the
advertised inbound flow-control maximum `in_data_max`. -/
structure q_stream where
  state : strm_state
  in_data_off : Nat
  in_q : List Frag
  in_ooo : List Frag
  in_data_max : Nat
deriving DecidableEq

/-- Modelled from the spec: `new_stream` (stream engine, not under `src/`).
§3: streams are created implicitly by first reference; a fresh stream has
received nothing and advertises the configured inbound window. -/
def new_stream (initMax : Nat) : q_stream :=
  { state := strm_idle, in_data_off := 0, in_q := [], in_ooo := [],
    in_data_max := initMax }

/-- Modelled from the spec: `do_stream_fc` (stream engine, stream.c not under
`src/`).  §4.2: "On delivery, if `in_data_off` has consumed ≥ half of the
window, schedule MAX_STREAM_DATA / MAX_DATA update and increase the advertised
maximum."  The remaining window `in_data_max - in_data_off` is unsigned 64-bit
arithmetic in the source, so when delivered data has run past the advertised
maximum the subtraction wraps, the condition fails, and the maximum is kept. -/
def do_stream_fc (s : q_stream) (winMax : Nat) : q_stream :=
  if (s.in_data_max + 2 ^ 64 - s.in_data_off) % 2 ^ 64 ≤ winMax / 2 then
    { s with in_data_max := s.in_data_off + winMax }
  else s

/-- `trim_frame` (frame.c:161-167): advance the fragment past the
already-received prefix, dropping `in_data_off - strm_off` bytes. -/
def trim_frame (p : Frag) (in_data_off : Nat) : Frag :=
  { p with off := p.off + (in_data_off - p.off),
           data := p.data.drop (in_data_off - p.off) }

/-- The right edge `p->strm_off + p->strm_data_len - 1` of a stored
out-of-order fragment, in the source's unsigned 64-bit arithmetic
(frame.c:409). -/
def ooo_right_edge (p : Frag) : Nat :=
  (p.off + p.data.length + (2 ^ 64 - 1)) % 2 ^ 64

/-- The out-of-order dequeue loop of `dec_stream_or_crypto_frame`
(frame.c:331-363): walk `in_ooo` by ascending offset; drop fragments whose
right edge fell below `in_data_off`, stop at the first fragment leaving a gap,
and otherwise trim and append, advancing `in_data_off`.  Returns the appended
fragments, the remaining out-of-order buffer and the new `in_data_off`. -/
def deq_ooo : List Frag → Nat → List Frag × List Frag × Nat
  | [], d => ([], [], d)
  | p :: rest, d =>
    if p.off + p.data.length < d then
      -- right edge of p < left edge of stream: drop stale fragment
      deq_ooo rest d
    else if p.off > d then
      -- still a gap
      ([], p :: rest, d)
    else
      let p' := if d > p.off then trim_frame p d else p
      let r := deq_ooo rest (d + p'.data.length)
      (p' :: r.1, r.2.1, r.2.2)

/-- Insertion into the `ooo_by_off` splay tree, as an ordered-by-offset list
insert (frame.c:428). -/
def ooo_insert : List Frag → Frag → List Frag
  | [], g => [g]
  | p :: rest, g => if g.off < p.off then g :: p :: rest else p :: ooo_insert rest g

/-- `strm_data_type_t`: how a STREAM/CRYPTO frame's data was classified. -/
inductive strm_data_type : Type
  | sdt_inv
  | sdt_seq
  | sdt_ooo
  | sdt_dup
  | sdt_ign
deriving DecidableEq

open strm_data_type

/-- Result of the stream/crypto receive path: either `err_close` with a
transport error code, or completion carrying the stream's resulting state in
the connection's stream table (`none` when no stream existed or was created),
the `ignore` flag (the source then clears `m->strm` to tell callers the
`w_iov` was not queued), and the `strm_data_type_t` classification. -/
inductive SCRes : Type
  | err (code : Nat)
  | ok (strm : Option q_stream) (ignore : Bool) (kind : strm_data_type)
deriving DecidableEq

/-- The `done:` tail of `dec_stream_or_crypto_frame` (frame.c:440-458): the
stream-level flow-control check `m->strm_off + m->strm_data_len >
m->strm->in_data_max` closes the connection with `ERR_FLOW_CONTROL` for
non-CRYPTO frames when a stream is attached. -/
def scr_finish (isCry : Bool) (m_off m_len : Nat) (ms : Option q_stream)
    (ignore : Bool) (kind : strm_data_type) : SCRes :=
  match ms with
  | some s =>
    if isCry = false ∧ s.in_data_max < m_off + m_len then
      SCRes.err ERR_FLOW_CONTROL
    else SCRes.ok (some s) ignore kind
  | none => SCRes.ok none ignore kind

/-- The inclusive right edge `strm_off + strm_data_len - (strm_data_len ? 1 :
0)` of a frame's data, as computed at frame.c:307-308 and 413-414. -/
def sd_last (off len : Nat) : Nat := off + len - (if 0 < len then 1 else 0)

/-- The data-delivery core of `dec_stream_or_crypto_frame` (frame.c:305-438)
for the stream `s` the frame names: best-case in-order delivery with prefix
trim and out-of-order dequeue, complete-duplicate drop, or out-of-order
buffering with overlap check. -/
def scr_deliver (isCry finB : Bool) (off : Nat) (data : List Nat)
    (winMax : Nat) (s : q_stream) : SCRes :=
  let len := data.length
  if s.in_data_off ≥ off ∧ s.in_data_off ≤ sd_last off len then
    -- best case: new in-order data
    if s.state = strm_hcrm ∨ s.state = strm_clsd then
      scr_finish isCry off len (some s) true sdt_ign
    else
      let m1 : Frag :=
        if s.in_data_off > off then trim_frame ⟨off, data, finB⟩ s.in_data_off
        else ⟨off, data, finB⟩
      let q := deq_ooo s.in_ooo (s.in_data_off + m1.data.length)
      let in_q' := s.in_q ++ m1 :: q.1
      let st' :=
        match in_q'.getLast? with
        | some g =>
          if g.fin then
            (if s.state.toNat ≤ strm_hcrm.toNat then strm_hcrm else strm_clsd)
          else s.state
        | none => s.state
      let s' : q_stream :=
        { state := st', in_data_off := q.2.2, in_q := in_q', in_ooo := q.2.1,
          in_data_max := s.in_data_max }
      let s'' := if isCry then s' else do_stream_fc s' winMax
      scr_finish isCry m1.off m1.data.length (some s'') false sdt_seq
  else if off + len ≤ s.in_data_off then
    -- data is a complete duplicate
    scr_finish isCry off len (some s) true sdt_dup
  else
    -- data is out of order
    if s.state = strm_hcrm ∨ s.state = strm_clsd then
      scr_finish isCry off len (some s) true sdt_ign
    else
      match (s.in_ooo.dropWhile (fun p => ooo_right_edge p < off)).head? with
      | some p =>
        if p.off ≤ sd_last off len then
          -- existing overlapping out-of-order data: drop the frame
          scr_finish isCry off len (some s) true sdt_ign
        else
          scr_finish isCry off len
            (some { s with in_ooo := ooo_insert s.in_ooo ⟨off, data, finB⟩ })
            false sdt_ooo
      | none =>
        scr_finish isCry off len
          (some { s with in_ooo := ooo_insert s.in_ooo ⟨off, data, finB⟩ })
          false sdt_ooo

/-- Modelled from the spec: §3 "signed stream ID (encodes initiator and
uni/bi)" — on the wire bit 0x1 marks a server-initiated stream. -/
def is_srv_ini (sid : Int) : Bool := sid % 2 == 1

/-- Modelled from the spec: §3 — on the wire bit 0x2 marks a unidirectional
stream. -/
def is_uni (sid : Int) : Bool := sid % 4 ≥ 2

/-- `dec_stream_or_crypto_frame` (frame.c:220-459), from the parsed frame
fields on: CRYPTO frames fail with `ERR_STREAM_STATE` when their epoch's
crypto stream is abandoned (`c->cstrms[e] == 0`, i.e. `strm? = none`) and
never carry FIN; a stream ID above `max_sid` closes with `ERR_STREAM_ID`;
zero-length frames without FIN are ignored; a frame for an unknown stream is
ignored when the ID is in `c->clsd_strms`, rejected with `ERR_STREAM_STATE`
when its initiator bit is inconsistent with the receiving side, and otherwise
creates the stream; then data is delivered via `scr_deliver`. -/
def dec_stream_or_crypto_frame (clnt isCry fin : Bool) (sid maxSid : Int)
    (off : Nat) (data : List Nat) (winMax initMax : Nat)
    (strm? : Option q_stream) (inClsd : Bool) : SCRes :=
  if isCry ∧ strm? = none then SCRes.err ERR_STREAM_STATE
  else
    let finB := if isCry then false else fin
    if maxSid < sid then SCRes.err ERR_STREAM_ID
    else if data.length = 0 ∧ finB = false then
      scr_finish isCry off data.length strm? true sdt_ign
    else
      match strm? with
      | none =>
        if inClsd then scr_finish isCry off data.length none true sdt_ign
        else if is_srv_ini sid ≠ clnt then SCRes.err ERR_STREAM_STATE
        else scr_deliver isCry finB off data winMax (new_stream initMax)
      | some s => scr_deliver isCry finB off data winMax s

/-! ## ACK processing (`dec_ack_frame`, frame.c:477-654) and ACK emission
(`enc_ack_frame`, frame.c:1432-1528)

The packet-number-space context enters as a `pn_ctx`; the observable recovery
effects (which packets were acked, which invocation of `on_ack_received_1`
happened, whether ECN triggered `congestion_event`) are collected in an
`ack_eff`.  The per-packet ECN-capability verification against the socket
option (frame.c:597-605) and the debug logging are connection-I/O side
effects no claim concerns and are not modelled. -/

/-- The recovery-relevant fields of a sent packet's `pkt_meta`: send time `t`
and whether the packet was ACK-eliciting. -/
structure pkt_meta_sent where
  t : Nat
  ack_eliciting : Bool
deriving DecidableEq

/-- `diet_find`: membership of `n` in an interval set (a `diet` stores
pairwise-disjoint `[lo, hi]` intervals in ascending order). -/
def diet_find (l : List (Nat × Nat)) (n : Nat) : Bool :=
  l.any (fun iv => iv.1 ≤ n ∧ n ≤ iv.2)

/-- The `hi` of `diet_min_ival`: the cumulative-ack point `cum_ack` of
`dec_ack_frame` (frame.c:514-515); `none` plays the `UINT_T_MAX` sentinel of
an empty set. -/
def diet_min_hi (l : List (Nat × Nat)) : Option Nat :=
  match l with
  | [] => none
  | iv :: _ => some iv.2

/-- The packet-number-space context `dec_ack_frame` reads: the acked-or-lost
interval set, the sent-packet map, the previous ECN CE counter, and the
ACK-delay exponent already resolved from the packet type (frame.c:505-507). -/
structure pn_ctx where
  acked_or_lost : List (Nat × Nat)
  sent : List (Nat × pkt_meta_sent)
  ce_cnt : Nat
  ade : Nat
deriving DecidableEq

/-- `find_sent_pkt`: look up the sent-packet record for packet number `n`. -/
def find_sent_pkt (sent : List (Nat × pkt_meta_sent)) (n : Nat) :
    Option pkt_meta_sent :=
  match sent.find? (fun e => e.1 == n) with
  | some e => some e.2
  | none => none

/-- Observable outcome of decoding one ACK frame: the frame's largest
acknowledged packet number and raw ACK delay, the acknowledged ranges in wire
(descending) order as `(lo, hi)` pairs, the `on_ack_received_1` invocations
(packet number with that packet's ACK-eliciting flag), the `on_pkt_acked`
invocations in order, whether ECN CE growth fired `congestion_event`, and
whether any new ack was seen (`on_ack_received_2` runs exactly then,
frame.c:649-650). -/
structure ack_eff where
  lg_ack_in_frm : Nat
  ack_delay_raw : Nat
  ranges : List (Nat × Nat)
  oar1 : List (Nat × Bool)
  acked : List Nat
  ecn_ce_event : Bool
  got_new_ack : Bool
deriving DecidableEq

/-- Modelled from the spec: `on_ack_received_1` (recovery.c is not under
`src/`; recovery.h:102-103 declares it) — §4.3/§4.4: it updates the RTT
estimate from the largest newly acked packet when that packet was
ACK-eliciting. -/
def on_ack_received_1_updates_rtt (ack_eliciting : Bool) : Bool := ack_eliciting

/-- The skip test `likely(cum_ack != UINT_T_MAX) && ack <= cum_ack`
(frame.c:569): `ack` is at or below the cumulative-ack point. -/
def cum_covers (cum : Option Nat) (ack : Nat) : Bool :=
  match cum with
  | some c => ack ≤ c
  | none => false

/-- The inner per-range loop of `dec_ack_frame` (frame.c:567-612): walk `ack`
from `lg_ack` down to `lo = lg_ack - ack_rng`; skip the remainder of the
range at or below the cumulative-ack point, skip packet numbers already in
`acked_or_lost`, close with `ERR_PROTOCOL_VIOLATION` for a packet never sent,
and otherwise record the ack (`on_pkt_acked`), invoking `on_ack_received_1`
exactly when the packet number is the frame's largest.  The fuel argument is
`ack - lo + 1`, the maximal number of iterations. -/
def proc_range (ctx : pn_ctx) (cum : Option Nat) (lgFrm : Nat) :
    Nat → Nat → Nat → ack_eff → Except Nat ack_eff
  | 0, _, _, eff => Except.ok eff
  | fuel + 1, ack, lo, eff =>
    if cum_covers cum ack then
      Except.ok eff
    else if diet_find ctx.acked_or_lost ack then
      (if lo < ack then proc_range ctx cum lgFrm fuel (ack - 1) lo eff
       else Except.ok eff)
    else
      match find_sent_pkt ctx.sent ack with
      | none => Except.error ERR_PROTOCOL_VIOLATION
      | some m_acked =>
        let eff' : ack_eff :=
          { eff with
            got_new_ack := true
            oar1 := eff.oar1 ++
              (if ack = lgFrm then [(ack, m_acked.ack_eliciting)] else [])
            acked := eff.acked ++ [ack] }
        if lo < ack then proc_range ctx cum lgFrm fuel (ack - 1) lo eff'
        else Except.ok eff'

/-- The outer range loop of `dec_ack_frame` (frame.c:520-625): `n` runs from
`ack_rng_cnt + 1` down; each iteration decodes `ack_rng` (guarded by
`UINT16_MAX << 4` and by `lg_ack`), processes the range, and for all but the
last decodes `gap` (guarded) and steps `lg_ack` down by `ack_rng + gap + 2`.
The processed range is recorded in the effect for observability. -/
def dec_ack_loop (ctx : pn_ctx) (cum : Option Nat) (lgFrm : Nat) :
    Nat → Nat → List Nat → ack_eff → Except Nat (ack_eff × List Nat)
  | 0, _, bs, eff => Except.ok (eff, bs)
  | n + 1, lg_ack, bs, eff =>
    match decv bs with
    | none => Except.error ERR_FRAME_ENC
    | some (ack_rng, bs1) =>
      if 65535 * 16 < ack_rng then Except.error ERR_INTERNAL
      else if lg_ack < ack_rng then Except.error ERR_FRAME_ENC
      else
        match proc_range ctx cum lgFrm (ack_rng + 1) lg_ack (lg_ack - ack_rng)
            eff with
        | Except.error e => Except.error e
        | Except.ok eff1 =>
          let eff2 : ack_eff :=
            { eff1 with ranges := eff1.ranges ++ [(lg_ack - ack_rng, lg_ack)] }
          if n = 0 then Except.ok (eff2, bs1)
          else
            match decv bs1 with
            | none => Except.error ERR_FRAME_ENC
            | some (gap, bs2) =>
              if lg_ack - ack_rng < gap + 2 then
                Except.error ERR_PROTOCOL_VIOLATION
              else
                dec_ack_loop ctx cum lgFrm n (lg_ack - ack_rng - (gap + 2)) bs2
                  eff2

/-- `dec_ack_frame` (frame.c:477-654) over the frame body after the type
byte: decode largest acked, the raw ACK delay (rejecting values above
`UINT32_MAX / 2` with `ERR_FRAME_ENC`; the delay reported onward is the raw
value shifted by the ACK-delay exponent), the range count, then the ranges;
for `FRM_ACE` decode the three ECN counts and trigger `congestion_event` when
the CE count grew past the stored one (frame.c:643-646). -/
def dec_ack_frame (ctx : pn_ctx) (type : Nat) (bs : List Nat) :
    Except Nat (ack_eff × List Nat) :=
  match decv bs with
  | none => Except.error ERR_FRAME_ENC
  | some (lg_ack_in_frm, bs1) =>
    match decv bs1 with
    | none => Except.error ERR_FRAME_ENC
    | some (ack_delay_raw, bs2) =>
      if 2147483647 < ack_delay_raw then Except.error ERR_FRAME_ENC
      else
        match decv bs2 with
        | none => Except.error ERR_FRAME_ENC
        | some (ack_rng_cnt, bs3) =>
          let eff0 : ack_eff :=
            { lg_ack_in_frm := lg_ack_in_frm, ack_delay_raw := ack_delay_raw,
              ranges := [], oar1 := [], acked := [], ecn_ce_event := false,
              got_new_ack := false }
          match dec_ack_loop ctx (diet_min_hi ctx.acked_or_lost) lg_ack_in_frm
              (ack_rng_cnt + 1) lg_ack_in_frm bs3 eff0 with
          | Except.error e => Except.error e
          | Except.ok (eff, bs4) =>
            if type = FRM_ACE then
              match decv bs4 with
              | none => Except.error ERR_FRAME_ENC
              | some (_ect0, bs5) =>
                match decv bs5 with
                | none => Except.error ERR_FRAME_ENC
                | some (_ect1, bs6) =>
                  match decv bs6 with
                  | none => Except.error ERR_FRAME_ENC
                  | some (ce, bs7) =>
                    Except.ok ({ eff with ecn_ce_event := ctx.ce_cnt < ce },
                      bs7)
            else Except.ok (eff, bs4)

/-- One ACK frame as it sits in a packet: the frame-type byte followed by the
body, dispatched the way `dec_frames` hands ACK/ACK_ECN to `dec_ack_frame`. -/
def dec_ack_packet (ctx : pn_ctx) (bs : List Nat) :
    Except Nat (ack_eff × List Nat) :=
  match bs with
  | [] => Except.error ERR_FRAME_ENC
  | t :: r => dec_ack_frame ctx t r

/-- The range-emission loop of `enc_ack_frame` (frame.c:1466-1509):
`diet_foreach_rev` walks the receive ranges from highest to lowest, so the
input is the descending list of `(lo, hi)` ranges; `prev_lo = 0` marks the
first range (no gap emitted), and each later range is preceded by
`gap = prev_lo - hi - 2`. -/
def enc_ack_ranges : List (Nat × Nat) → Nat → List Nat
  | [], _ => []
  | (lo, hi) :: rest, prev_lo =>
    (if prev_lo ≠ 0 then encv (prev_lo - hi - 2) else []) ++
      encv (hi - lo) ++ enc_ack_ranges rest lo

/-- `enc_ack_frame` (frame.c:1432-1528) over the descending receive-range
list: type `FRM_ACE` when any ECN counter is nonzero else `FRM_ACK`, then
largest acked, the (already shifted-down) ACK delay, `diet_cnt(recv) - 1`,
the ranges, and for `FRM_ACE` the three ECN counts.  An ACK delay above
`UINT32_MAX / 2` aborts via `err_close` right after the largest-acked field,
leaving a partial frame (frame.c:1456-1460); an empty receive set trips
`ensure` ("nothing to ACK"), modelled as the empty output. -/
def enc_ack_frame (recv_desc : List (Nat × Nat)) (ack_delay ect0 ect1 ce :
    Nat) : List Nat :=
  match recv_desc with
  | [] => []
  | (_, hi0) :: _ =>
    let type := if ect0 ≠ 0 ∨ ect1 ≠ 0 ∨ ce ≠ 0 then FRM_ACE else FRM_ACK
    if 2147483647 < ack_delay then type :: encv hi0
    else
      type :: (encv hi0 ++ encv ack_delay ++ encv (recv_desc.length - 1) ++
        enc_ack_ranges recv_desc 0 ++
        (if type = FRM_ACE then encv ect0 ++ encv ect1 ++ encv ce else []))

/-! ## CONNECTION_CLOSE receipt (`dec_close_frame`, frame.c:657-712) -/

/-- Connection states (`conn_idle … conn_clsd`), in lifecycle order
(§4.5: idle, opening, established, closing, draining, closed; `conn_qlse` is
the source's intermediate local-close state). -/
inductive conn_state : Type
  | conn_idle
  | conn_opng
  | conn_estb
  | conn_qlse
  | conn_clsg
  | conn_drng
  | conn_clsd
deriving DecidableEq

open conn_state

/-- Modelled from the spec: `enter_closing` (connection state machine, conn.c
not under `src/`): it moves the connection into the closing state and arms the
closing timer (§4.5: the closing state is entered with closing timer `3·PTO`;
§7: a closing connection still emits its CONNECTION_CLOSE).  Returns the new
state and the delay the closing alarm is armed with. -/
def enter_closing (pto3 : Nat) : conn_state × Nat := (conn_clsg, pto3)

/-- The state transition at the tail of `dec_close_frame` (frame.c:701-709):
a draining connection just re-arms the closing alarm (immediately); otherwise
a client moves to draining with the alarm armed immediately, while a server
calls `enter_closing`.  Returns the new state and the armed alarm delay. -/
def close_transition (clnt : Bool) (st : conn_state) (pto3 : Nat) :
    conn_state × Nat :=
  if st = conn_drng then (conn_drng, 0)
  else if clnt then (conn_drng, 0)
  else enter_closing pto3

/-- `dec_close_frame` (frame.c:657-712) over the frame body after the type
byte: decode the error code, for `FRM_CLQ` the offending frame type, then the
reason length and reason (clamped to the remaining bytes; a reason length
longer than the frame closes with `ERR_FRAME_ENC`), and apply
`close_transition`. -/
def dec_close_frame (clnt : Bool) (st : conn_state) (pto3 : Nat) (type : Nat)
    (bs : List Nat) : Except Nat (conn_state × Nat × List Nat) :=
  match decv bs with
  | none => Except.error ERR_FRAME_ENC
  | some (_err_code, bs1) =>
    match (if type = FRM_CLQ then decv bs1 else some (0, bs1)) with
    | none => Except.error ERR_FRAME_ENC
    | some (_frame_type, bs2) =>
      match decv bs2 with
      | none => Except.error ERR_FRAME_ENC
      | some (reas_len, bs3) =>
        let act_reas_len := min reas_len bs3.length
        let bs4 := bs3.drop act_reas_len
        if reas_len ≠ act_reas_len then Except.error ERR_FRAME_ENC
        else
          let tr := close_transition clnt st pto3
          Except.ok (tr.1, tr.2, bs4)

/-! ## Stream lookup for control frames (`get_and_validate_strm`,
frame.c:170-199) -/

/-- Result of `get_and_validate_strm`: `err_close` with a code (returning no
stream), silently ignoring a closed stream (returning no stream), or a stream
— either the existing one or one newly created for `FRM_MSD`/`FRM_STP`. -/
inductive gvs_res : Type
  | gvs_err (code : Nat)
  | gvs_ignored
  | gvs_strm (created : Bool)
deriving DecidableEq

open gvs_res

/-- `get_and_validate_strm` (frame.c:170-199): a unidirectional stream whose
initiator matches the side that may not carry this frame closes with
`ERR_STREAM_STATE`; a known stream is returned; an unknown stream ID in
`c->clsd_strms` is ignored; an unknown, never-closed stream is created for
`FRM_MSD` and `FRM_STP` and closes with `ERR_STREAM_STATE` for every other
frame type. -/
def get_and_validate_strm (clnt : Bool) (sid : Int) (type : Nat)
    (ok_when_writer : Bool) (strm_exists : Bool) (in_clsd : Bool) : gvs_res :=
  if is_uni sid ∧ is_srv_ini sid = (if ok_when_writer then clnt else !clnt) then
    gvs_err ERR_STREAM_STATE
  else if strm_exists then gvs_strm false
  else if in_clsd then gvs_ignored
  else if type = FRM_MSD ∨ type = FRM_STP then gvs_strm true
  else gvs_err ERR_STREAM_STATE

/-! ## NEW_TOKEN and the frame loop (`dec_new_token_frame`,
frame.c:1094-1117; `dec_frames`, frame.c:1132-1350) -/

/-- `dec_new_token_frame` (frame.c:1094-1117) over the frame body: decode the
token length, read at most the remaining bytes as token, close with
`ERR_FRAME_ENC` when the announced length exceeds the frame, and otherwise
return `is_clnt(c)` — `false` on a server, since only servers may send
NEW_TOKEN frames, which the frame loop turns into a parse failure. -/
def dec_new_token_frame (clnt : Bool) (bs : List Nat) :
    Except Nat (Bool × List Nat) :=
  match decv bs with
  | none => Except.error ERR_FRAME_ENC
  | some (tok_len, bs1) =>
    let act_tok_len := min tok_len bs1.length
    let bs2 := bs1.drop act_tok_len
    if tok_len ≠ act_tok_len then Except.error ERR_FRAME_ENC
    else Except.ok (clnt, bs2)

/-- Outcome of one iteration of the `dec_frames` loop for one frame:
the connection is closed with an error code, the frame was handled in place,
or it was dispatched to one of the dedicated handlers embedded above. -/
inductive fr_step : Type
  | fr_closed (code : Nat)
  | fr_handled (rest : List Nat)
  | fr_dispatched
deriving DecidableEq

open fr_step

/-- One iteration of the `dec_frames` loop (frame.c:1154-1331) on frame type
`t` with frame body `body`: PADDING is coalesced before any check; a defined
frame type (`t < FRM_MAX`) not in the epoch's legality set closes with
`ERR_PROTOCOL_VIOLATION`; STREAM/CRYPTO, ACK, RESET_STREAM,
CONNECTION_CLOSE and the other control frames are dispatched to their
handlers (embedded separately above); PING is handled in place;
HANDSHAKE_DONE yields `ok = is_clnt(c)`; NEW_TOKEN runs
`dec_new_token_frame`; an unknown type closes with `ERR_FRAME_ENC`; and any
handler returning `ok == false` closes with `ERR_FRAME_ENC`
(frame.c:1323-1327). -/
def dec_frames_step (clnt : Bool) (e : epoch) (t : Nat) (body : List Nat) :
    fr_step :=
  if t = FRM_PAD then fr_handled body
  else if t < FRM_MAX ∧ frame_ok e t = false then
    fr_closed ERR_PROTOCOL_VIOLATION
  else if [FRM_CRY, FRM_STR, FRM_STR_09, FRM_STR_0a, FRM_STR_0b, FRM_STR_0c,
      FRM_STR_0d, FRM_STR_0e, FRM_STR_0f].contains t then fr_dispatched
  else if t = FRM_ACE ∨ t = FRM_ACK then fr_dispatched
  else if t = FRM_RST then fr_dispatched
  else if t = FRM_CLQ ∨ t = FRM_CLA then fr_dispatched
  else if t = FRM_PNG then fr_handled body
  else if t = FRM_HSD then
    (if clnt then fr_handled body else fr_closed ERR_FRAME_ENC)
  else if [FRM_MSD, FRM_MSB, FRM_MSU, FRM_MCD, FRM_SDB, FRM_CDB, FRM_SBB,
      FRM_SBU, FRM_STP, FRM_PCL, FRM_PRP, FRM_CID, FRM_RTR].contains t then
    fr_dispatched
  else if t = FRM_TOK then
    match dec_new_token_frame clnt body with
    | Except.error code => fr_closed code
    | Except.ok (ok, rest) =>
      if ok then fr_handled rest else fr_closed ERR_FRAME_ENC
  else fr_closed ERR_FRAME_ENC

/-! ## Claims about the frame legality table (C3) -/

/-- The per-epoch frame legality as the amended claim states it, for
comparison with the source's `frame_ok` table: Initial and Handshake accept
only PADDING, PING, CRYPTO, both CONNECTION_CLOSE variants and ACK/ACK_ECN;
0-RTT excludes exactly CRYPTO, ACK/ACK_ECN, both CONNECTION_CLOSE variants
and HANDSHAKE_DONE (so NEW_TOKEN is permitted); 1-RTT permits every defined
type. -/
def frame_ok_amended : epoch → Nat → Bool
  | ep_init, t =>
    [FRM_PAD, FRM_PNG, FRM_CRY, FRM_CLQ, FRM_CLA, FRM_ACK, FRM_ACE].contains t
  | ep_hshk, t =>
    [FRM_PAD, FRM_PNG, FRM_CRY, FRM_CLQ, FRM_CLA, FRM_ACK, FRM_ACE].contains t
  | ep_0rtt, t =>
    !([FRM_CRY, FRM_ACK, FRM_ACE, FRM_CLQ, FRM_CLA, FRM_HSD].contains t)
  | ep_data, _ => true

/-- The decoded effect of the witness ACK frame for
`rtt_update_once_largest_only`: packets 4-5 acked, packet 5 in the sent map
and ACK-eliciting. -/
def c4_witness_eff : ack_eff :=
  { lg_ack_in_frm := 5, ack_delay_raw := 0, ranges := [(4, 5)],
    oar1 := [(5, true)], acked := [5, 4], ecn_ce_event := false,
    got_new_ack := true }

/-! ## Claims about acked packet numbers (C5) -/

/-- A packet number an ACK frame may cover without tripping
PROTOCOL_VIOLATION: already acked-or-lost, present in the sent-packet map, or
at or below the cumulative-ack point. -/
def ack_pn_accounted (ctx : pn_ctx) (p : Nat) : Prop :=
  diet_find ctx.acked_or_lost p = true
  ∨ (find_sent_pkt ctx.sent p).isSome = true
  ∨ cum_covers (diet_min_hi ctx.acked_or_lost) p = true

/-- The packet-number-space context of the witness for
`ack_never_sent_protocol_violation`. -/
def c5_witness_ctx : pn_ctx := ⟨[(0, 2)], [(5, ⟨100, true⟩)], 0, 0⟩

/-- The decoded effect of the witness ACK frame for
`ack_never_sent_protocol_violation`. -/
def c5_witness_eff : ack_eff :=
  { lg_ack_in_frm := 5, ack_delay_raw := 0, ranges := [(5, 5)],
    oar1 := [(5, true)], acked := [5], ecn_ce_event := false,
    got_new_ack := true }

/-- A receive-range set in wire (descending) order, as `diet_foreach_rev`
produces it: each range has `lo ≤ hi`, spans at most `UINT16_MAX << 4`
packet numbers (the decoder's `ack_rng` guard, frame.c:525), fits a varint,
and successive ranges are disjoint and non-adjacent (`hi2 + 2 ≤ lo`). -/
def wf_ranges_desc : List (Nat × Nat) → Bool
  | [] => true
  | [(lo, hi)] =>
    decide (lo ≤ hi) && decide (hi - lo ≤ 1048560) &&
      decide (hi < 4611686018427387904)
  | (lo, hi) :: (lo2, hi2) :: rest =>
    decide (lo ≤ hi) && decide (hi - lo ≤ 1048560) &&
      decide (hi < 4611686018427387904) && decide (hi2 + 2 ≤ lo) &&
      wf_ranges_desc ((lo2, hi2) :: rest)

/-! ## Theorems -/

theorem decv_encv (v : Nat) (h : v < 4611686018427387904) (rest : List Nat) :
    decv (encv v ++ rest) = some (v, rest) := by
  unfold encv
  by_cases h1 : v < 64
  · simp only [if_pos h1, List.cons_append, List.nil_append, decv]
    have hd : v / 64 = 0 := by omega
    simp [hd]
    omega
  · by_cases h2 : v < 16384
    · simp only [if_neg h1, if_pos h2, List.cons_append, List.nil_append, decv]
      have hd : (64 + v / 256) / 64 = 1 := by omega
      simp [hd]
      omega
    · by_cases h3 : v < 1073741824
      · simp only [if_neg h1, if_neg h2, if_pos h3, List.cons_append,
          List.nil_append, decv]
        have hd : (128 + v / 16777216) / 64 = 2 := by omega
        simp [hd]
        omega
      · simp only [if_neg h1, if_neg h2, if_neg h3, List.cons_append,
          List.nil_append, decv]
        have hd : (192 + v / 72057594037927936) / 64 = 3 := by omega
        simp [hd]
        omega

/-- C3, counterexample: the source's legality table deviates from the claim.
It admits CONNECTION_CLOSE(app) (0x1d) in Initial packets — receipt there is
dispatched, not closed with PROTOCOL_VIOLATION, though the claim's "only
PADDING, PING, CRYPTO, CONNECTION_CLOSE(quic), and ACK" excludes it — and it
admits NEW_TOKEN in 0-RTT packets, which the claim says 0-RTT excludes, while
rejecting CONNECTION_CLOSE(quic) in 0-RTT, which the claim's exclusion list
would permit. -/
theorem frame_legality_table_deviations :
    frame_ok ep_init FRM_CLA = true
    ∧ dec_frames_step true ep_init FRM_CLA [] = fr_dispatched
    ∧ fr_dispatched ≠ fr_closed ERR_PROTOCOL_VIOLATION
    ∧ frame_ok ep_0rtt FRM_TOK = true
    ∧ frame_ok ep_0rtt FRM_CLQ = false := by decide

/-- C3 (amended): the per-epoch legality table equals, over all defined frame
types, the amended table `frame_ok_amended` (Initial/Handshake: only PAD,
PING, CRYPTO, CONNECTION_CLOSE of both variants, ACK and ACK_ECN; 0-RTT:
everything except CRYPTO, ACK/ACK_ECN, CONNECTION_CLOSE of both variants and
HANDSHAKE_DONE; 1-RTT: all), and receipt of a defined frame type not
permitted in the packet's epoch closes the connection with
`ERR_PROTOCOL_VIOLATION`. -/
theorem frame_legality_table_exact :
    (∀ (e : epoch) (t : Nat), t < FRM_MAX → frame_ok e t = frame_ok_amended e t)
    ∧ (∀ (clnt : Bool) (e : epoch) (t : Nat) (body : List Nat),
        t < FRM_MAX → frame_ok e t = false →
        dec_frames_step clnt e t body = fr_closed ERR_PROTOCOL_VIOLATION) := by
  constructor
  · intro e
    cases e <;> decide
  · intro clnt e t body ht hok
    have hpad : t ≠ FRM_PAD := by
      rintro rfl
      cases e <;> revert hok <;> decide
    simp [dec_frames_step, hpad, ht, hok]

/-- Witness for `frame_legality_table_exact`: NEW_TOKEN in an Initial packet
is not in the table and closes with PROTOCOL_VIOLATION. -/
theorem frame_legality_table_exact_witness :
    frame_ok ep_init FRM_TOK = frame_ok_amended ep_init FRM_TOK
    ∧ dec_frames_step true ep_init FRM_TOK [] =
        fr_closed ERR_PROTOCOL_VIOLATION :=
  ⟨frame_legality_table_exact.1 ep_init FRM_TOK (by decide),
   frame_legality_table_exact.2 true ep_init FRM_TOK [] (by decide) (by decide)⟩

/-! ## Claims about the stream-ID limit (C7) -/

/-- C7, counterexample: a STREAM frame whose stream ID exceeds
`max_sid` closes the connection with `ERR_STREAM_ID` — the stream-limit code
0x4 — and not with `ERR_PROTOCOL_VIOLATION` (0xa) as the claim states. -/
theorem sid_over_max_error_code :
    dec_stream_or_crypto_frame true false false 100 3 0 [1] 1000 1000
      (some (new_stream 1000)) false = SCRes.err ERR_STREAM_ID
    ∧ ERR_STREAM_ID ≠ ERR_PROTOCOL_VIOLATION := by decide

/-- C7 (amended): every STREAM frame whose stream ID exceeds the maximum
permitted by the advertised stream limits closes the connection with the
stream-limit error `ERR_STREAM_ID` (0x4). -/
theorem sid_over_max_stream_limit (clnt fin : Bool) (sid maxSid : Int)
    (off : Nat) (data : List Nat) (winMax initMax : Nat)
    (strm? : Option q_stream) (inClsd : Bool) (h : maxSid < sid) :
    dec_stream_or_crypto_frame clnt false fin sid maxSid off data winMax
      initMax strm? inClsd = SCRes.err ERR_STREAM_ID := by
  simp [dec_stream_or_crypto_frame, h]

/-- Witness for `sid_over_max_stream_limit` at stream ID 8 with limit 4. -/
theorem sid_over_max_stream_limit_witness :
    dec_stream_or_crypto_frame true false false 8 4 0 [1, 2] 1000 1000
      (some (new_stream 1000)) false = SCRes.err ERR_STREAM_ID :=
  sid_over_max_stream_limit true false 8 4 0 [1, 2] 1000 1000
    (some (new_stream 1000)) false (by decide)

/-! ## Claims about stream lookup for control frames (C9) -/

/-- C9: under valid directionality, `get_and_validate_strm` creates a fresh
stream for MAX_STREAM_DATA and STOP_SENDING frames naming an unknown,
never-closed stream; every other frame type naming an unknown, never-closed
stream closes with `ERR_STREAM_STATE`; and frames naming an unknown stream
recorded in the closed set are ignored. -/
theorem strm_lookup_policy (clnt : Bool) (sid : Int) (t : Nat) (okw : Bool)
    (hdir : ¬(is_uni sid = true ∧
      is_srv_ini sid = (if okw then clnt else !clnt))) :
    ((t = FRM_MSD ∨ t = FRM_STP) →
      get_and_validate_strm clnt sid t okw false false = gvs_strm true)
    ∧ (t ≠ FRM_MSD → t ≠ FRM_STP →
      get_and_validate_strm clnt sid t okw false false =
        gvs_err ERR_STREAM_STATE)
    ∧ get_and_validate_strm clnt sid t okw false true = gvs_ignored := by
  refine ⟨fun ht => ?_, fun h1 h2 => ?_, ?_⟩ <;>
    simp [get_and_validate_strm, hdir] <;> tauto

/-- Witness for `strm_lookup_policy`: client side, bidirectional
client-initiated stream 0, MAX_STREAM_DATA. -/
theorem strm_lookup_policy_witness :
    get_and_validate_strm true 0 FRM_MSD true false false = gvs_strm true
    ∧ get_and_validate_strm true 0 FRM_MSD true false true = gvs_ignored :=
  ⟨(strm_lookup_policy true 0 FRM_MSD true (by decide)).1 (Or.inl rfl),
   (strm_lookup_policy true 0 FRM_MSD true (by decide)).2.2⟩

/-! ## Claims about server-only frames (C10) -/

/-- C10: a server receiving a syntactically well-formed NEW_TOKEN frame in a
1-RTT packet — `dec_new_token_frame` parses it and returns `is_clnt(c) =
false` — closes the connection with `ERR_FRAME_ENC`, not
`ERR_PROTOCOL_VIOLATION`, because the frame loop converts the `ok == false`
handler result into a FRAME_ENCODING close; likewise for HANDSHAKE_DONE. -/
theorem server_new_token_frame_enc_close (body rest : List Nat)
    (h : dec_new_token_frame false body = Except.ok (false, rest)) :
    dec_frames_step false ep_data FRM_TOK body = fr_closed ERR_FRAME_ENC
    ∧ (∀ b2 : List Nat,
        dec_frames_step false ep_data FRM_HSD b2 = fr_closed ERR_FRAME_ENC)
    ∧ ERR_FRAME_ENC ≠ ERR_PROTOCOL_VIOLATION := by
  refine ⟨?_, fun b2 => rfl, by decide⟩
  simp [dec_frames_step, h, FRM_TOK, FRM_PAD, FRM_MAX, frame_ok, FRM_CRY,
    FRM_STR, FRM_STR_09, FRM_STR_0a, FRM_STR_0b, FRM_STR_0c, FRM_STR_0d,
    FRM_STR_0e, FRM_STR_0f, FRM_ACE, FRM_ACK, FRM_RST, FRM_CLQ, FRM_CLA,
    FRM_PNG, FRM_HSD, FRM_MSD, FRM_MSB, FRM_MSU, FRM_MCD, FRM_SDB, FRM_CDB,
    FRM_SBB, FRM_SBU, FRM_STP, FRM_PCL, FRM_PRP, FRM_CID, FRM_RTR]

/-- Witness for `server_new_token_frame_enc_close`: a NEW_TOKEN frame with an
empty token. -/
theorem server_new_token_frame_enc_close_witness :
    dec_frames_step false ep_data FRM_TOK [0] = fr_closed ERR_FRAME_ENC
    ∧ (∀ b2 : List Nat,
        dec_frames_step false ep_data FRM_HSD b2 = fr_closed ERR_FRAME_ENC)
    ∧ ERR_FRAME_ENC ≠ ERR_PROTOCOL_VIOLATION :=
  server_new_token_frame_enc_close [0] [] (by decide)

/-! ## Claims about CONNECTION_CLOSE receipt (C8) -/

/-- C8, counterexample: a server in the established state that receives a
well-formed CONNECTION_CLOSE(quic) frame does not transition to the draining
state: `dec_close_frame` calls `enter_closing`, which enters the closing
state. -/
theorem server_close_rx_enters_closing :
    dec_close_frame false conn_estb 30 FRM_CLQ [0, 0, 0] =
      Except.ok (conn_clsg, 30, [])
    ∧ conn_clsg ≠ conn_drng := by decide

/-- C8 (amended): on receipt of a well-formed CONNECTION_CLOSE frame in the
established state, a client transitions to the draining state with the
closing/draining alarm armed (to fire immediately), while a server enters the
closing state via `enter_closing` with the closing timer (3·PTO) armed. -/
theorem close_rx_transition (clnt : Bool) (pto3 : Nat) (type : Nat)
    (bs : List Nat) (out : conn_state × Nat × List Nat)
    (h : dec_close_frame clnt conn_estb pto3 type bs = Except.ok out) :
    out.1 = (if clnt then conn_drng else conn_clsg)
    ∧ out.2.1 = (if clnt then 0 else pto3) := by
  unfold dec_close_frame at h
  repeat' split at h
  all_goals try exact Except.noConfusion h
  all_goals simp only [ne_eq] at h
  all_goals split at h
  all_goals try exact Except.noConfusion h
  all_goals rw [← Except.ok.inj h]
  all_goals cases clnt <;> simp [close_transition, enter_closing]

/-- Witness for `close_rx_transition`: a client receiving a minimal
CONNECTION_CLOSE(app) frame. -/
theorem close_rx_transition_witness :
    (conn_drng, 0, ([] : List Nat)).1 = (if true then conn_drng else conn_clsg)
    ∧ (conn_drng, 0, ([] : List Nat)).2.1 = (if true then 0 else 17) :=
  close_rx_transition true 17 FRM_CLA [0, 0] (conn_drng, 0, []) (by decide)

/-! ## Helper lemmas about the stream delivery path -/

@[simp]
theorem segsLen_nil : segsLen [] = 0 := rfl

@[simp]
theorem segsLen_cons (p : Frag) (l : List Frag) :
    segsLen (p :: l) = p.data.length + segsLen l := by
  simp [segsLen]

theorem deq_ooo_spec (l : List Frag) (d : Nat) :
    (deq_ooo l d).2.2 = d + segsLen (deq_ooo l d).1
    ∧ segsLen (deq_ooo l d).1 ≤ segsLen l
    ∧ ∀ g ∈ (deq_ooo l d).1, d ≤ g.off := by
  induction l generalizing d with
  | nil => simp [deq_ooo]
  | cons p rest ih =>
    by_cases h1 : p.off + p.data.length < d
    · simp only [deq_ooo, if_pos h1]
      refine ⟨(ih d).1, le_trans (ih d).2.1 (by simp), (ih d).2.2⟩
    · by_cases h2 : p.off > d
      · simp [deq_ooo, if_neg h1, if_pos h2]
      · simp only [deq_ooo, if_neg h1, if_neg h2]
        have hplen : (if d > p.off then trim_frame p d else p).data.length
            ≤ p.data.length := by
          split <;> simp [trim_frame]
        have hpoff : (if d > p.off then trim_frame p d else p).off = d := by
          split
          · simp only [trim_frame]
            omega
          · omega
        have ihr := ih (d + (if d > p.off then trim_frame p d else p).data.length)
        refine ⟨?_, ?_, ?_⟩
        · simp only [segsLen_cons]
          omega
        · simp only [segsLen_cons]
          omega
        · intro g hg
          rcases List.mem_cons.mp hg with hg | hg
          · rw [hg]
            omega
          · have := ihr.2.2 g hg
            omega

theorem do_stream_fc_mono (s : q_stream) (w : Nat)
    (hmax : s.in_data_max < 2 ^ 62) (hd : s.in_data_off < 2 ^ 63)
    (hw : w < 2 ^ 62) :
    s.in_data_max ≤ (do_stream_fc s w).in_data_max := by
  unfold do_stream_fc
  split
  · next hcond => simp only; omega
  · exact le_refl _

theorem do_stream_fc_viol (s : q_stream) (w : Nat)
    (hviol : s.in_data_max < s.in_data_off) (hd : s.in_data_off < 2 ^ 63)
    (hw : w < 2 ^ 62) : do_stream_fc s w = s := by
  unfold do_stream_fc
  split
  · next hcond => exact absurd hcond (by omega)
  · rfl

theorem scr_finish_some (isCry : Bool) (a b : Nat) (t : q_stream)
    (ign : Bool) (k : strm_data_type) :
    scr_finish isCry a b (some t) ign k =
      (if isCry = false ∧ t.in_data_max < a + b then
        SCRes.err ERR_FLOW_CONTROL
      else SCRes.ok (some t) ign k) := rfl

theorem sd_last_le (off len : Nat) : sd_last off len ≤ off + len := by
  unfold sd_last
  split <;> omega

theorem scr_deliver_fc (finB : Bool) (off : Nat) (data : List Nat)
    (winMax : Nat) (s : q_stream) (hmax : s.in_data_max < 2 ^ 62)
    (hwin : winMax < 2 ^ 62) (hooo : segsLen s.in_ooo < 2 ^ 62)
    (hlen : off + data.length < 2 ^ 62) :
    (off + data.length ≤ s.in_data_max →
      scr_deliver false finB off data winMax s ≠ SCRes.err ERR_FLOW_CONTROL)
    ∧ (s.in_data_max < off + data.length →
      scr_deliver false finB off data winMax s = SCRes.err ERR_FLOW_CONTROL)
    := by
  have hfin1 : ∀ (a b : Nat) (t : q_stream) (ign : Bool) (k : strm_data_type),
      a + b ≤ t.in_data_max →
      scr_finish false a b (some t) ign k ≠ SCRes.err ERR_FLOW_CONTROL := by
    intro a b t ign k hle
    rw [scr_finish_some, if_neg (fun hc => absurd hc.2 (by omega))]
    exact fun hh => SCRes.noConfusion hh
  have hfin2 : ∀ (a b : Nat) (t : q_stream) (ign : Bool) (k : strm_data_type),
      t.in_data_max < a + b →
      scr_finish false a b (some t) ign k = SCRes.err ERR_FLOW_CONTROL := by
    intro a b t ign k hgt
    rw [scr_finish_some, if_pos ⟨rfl, hgt⟩]
  have hm1sum : ∀ hc : Decidable (s.in_data_off > off),
      off ≤ s.in_data_off → s.in_data_off ≤ off + data.length →
      (@ite _ (s.in_data_off > off) hc
          (trim_frame ⟨off, data, finB⟩ s.in_data_off)
          (⟨off, data, finB⟩ : Frag)).off +
        (@ite _ (s.in_data_off > off) hc
          (trim_frame ⟨off, data, finB⟩ s.in_data_off)
          (⟨off, data, finB⟩ : Frag)).data.length = off + data.length := by
    intro hc h1 h2
    split <;> simp [trim_frame] <;> try omega
  have hd1 : ∀ hc : Decidable (s.in_data_off > off),
      off ≤ s.in_data_off → s.in_data_off ≤ off + data.length →
      s.in_data_off +
        (@ite _ (s.in_data_off > off) hc
          (trim_frame ⟨off, data, finB⟩ s.in_data_off)
          (⟨off, data, finB⟩ : Frag)).data.length = off + data.length := by
    intro hc h1 h2
    split <;> simp [trim_frame] <;> try omega
  have htail1 : ∀ (st' : strm_state) (d2 : Nat) (inq' rem : List Frag)
      (a b : Nat), a + b ≤ s.in_data_max → d2 < 2 ^ 63 →
      scr_finish false a b
        (some (do_stream_fc
          { state := st', in_data_off := d2, in_q := inq', in_ooo := rem,
            in_data_max := s.in_data_max } winMax)) false sdt_seq
        ≠ SCRes.err ERR_FLOW_CONTROL := by
    intro st' d2 inq' rem a b hab hd2
    apply hfin1
    exact le_trans hab
      (do_stream_fc_mono
        { state := st', in_data_off := d2, in_q := inq', in_ooo := rem,
          in_data_max := s.in_data_max } winMax hmax hd2 hwin)
  have htail2 : ∀ (st' : strm_state) (d2 : Nat) (inq' rem : List Frag)
      (a b : Nat), s.in_data_max < d2 → s.in_data_max < a + b →
      d2 < 2 ^ 63 →
      scr_finish false a b
        (some (do_stream_fc
          { state := st', in_data_off := d2, in_q := inq', in_ooo := rem,
            in_data_max := s.in_data_max } winMax)) false sdt_seq
        = SCRes.err ERR_FLOW_CONTROL := by
    intro st' d2 inq' rem a b hviol hab hd2
    rw [do_stream_fc_viol
      { state := st', in_data_off := d2, in_q := inq', in_ooo := rem,
        in_data_max := s.in_data_max } winMax hviol hd2 hwin]
    exact hfin2 a b _ false sdt_seq hab
  constructor
  · intro hle
    simp only [scr_deliver]
    split
    · next hbest =>
      have hdle : s.in_data_off ≤ off + data.length :=
        le_trans hbest.2 (sd_last_le off data.length)
      split
      · exact hfin1 off data.length s true sdt_ign hle
      · simp only [Bool.false_eq_true, if_false]
        have hq := deq_ooo_spec s.in_ooo (s.in_data_off +
          (if s.in_data_off > off then
            trim_frame ⟨off, data, finB⟩ s.in_data_off
          else (⟨off, data, finB⟩ : Frag)).data.length)
        have h1 := hm1sum inferInstance hbest.1 hdle
        have h2 := hd1 inferInstance hbest.1 hdle
        apply htail1
        · omega
        · omega
    · split
      · exact hfin1 off data.length s true sdt_dup hle
      · split
        · exact hfin1 off data.length s true sdt_ign hle
        · split
          · split
            · exact hfin1 off data.length s true sdt_ign hle
            · exact hfin1 off data.length _ false sdt_ooo hle
          · exact hfin1 off data.length _ false sdt_ooo hle
  · intro hgt
    simp only [scr_deliver]
    split
    · next hbest =>
      have hdle : s.in_data_off ≤ off + data.length :=
        le_trans hbest.2 (sd_last_le off data.length)
      split
      · exact hfin2 off data.length s true sdt_ign hgt
      · simp only [Bool.false_eq_true, if_false]
        have hq := deq_ooo_spec s.in_ooo (s.in_data_off +
          (if s.in_data_off > off then
            trim_frame ⟨off, data, finB⟩ s.in_data_off
          else (⟨off, data, finB⟩ : Frag)).data.length)
        have h1 := hm1sum inferInstance hbest.1 hdle
        have h2 := hd1 inferInstance hbest.1 hdle
        apply htail2
        · omega
        · omega
        · omega
    · split
      · exact hfin2 off data.length s true sdt_dup hgt
      · split
        · exact hfin2 off data.length s true sdt_ign hgt
        · split
          · split
            · exact hfin2 off data.length s true sdt_ign hgt
            · exact hfin2 off data.length _ false sdt_ooo hgt
          · exact hfin2 off data.length _ false sdt_ooo hgt

/-! ## Claims about stream flow control (C6) -/

/-- C6: for every STREAM frame naming an existing stream, the receive path
closes the connection with `ERR_FLOW_CONTROL` exactly when the frame's data
extends past the stream's advertised inbound maximum: frames with
`off + len ≤ in_data_max` never produce this error, and frames with
`off + len > in_data_max` (that are not rejected earlier for a stream ID
above the limit) always do.  The numeric bounds reflect that all wire values
are varints below `2^62`. -/
theorem stream_flow_control_error (clnt fin : Bool) (sid maxSid : Int)
    (off : Nat) (data : List Nat) (winMax initMax : Nat) (s : q_stream)
    (inClsd : Bool) (hmax : s.in_data_max < 2 ^ 62) (hwin : winMax < 2 ^ 62)
    (hooo : segsLen s.in_ooo < 2 ^ 62) (hlen : off + data.length < 2 ^ 62) :
    (off + data.length ≤ s.in_data_max →
      dec_stream_or_crypto_frame clnt false fin sid maxSid off data winMax
        initMax (some s) inClsd ≠ SCRes.err ERR_FLOW_CONTROL)
    ∧ (sid ≤ maxSid → s.in_data_max < off + data.length →
      dec_stream_or_crypto_frame clnt false fin sid maxSid off data winMax
        initMax (some s) inClsd = SCRes.err ERR_FLOW_CONTROL) := by
  have hcore := scr_deliver_fc fin off data winMax s hmax hwin hooo hlen
  have hred : dec_stream_or_crypto_frame clnt false fin sid maxSid off data
      winMax initMax (some s) inClsd =
      (if maxSid < sid then SCRes.err ERR_STREAM_ID
       else if data.length = 0 ∧ fin = false then
         scr_finish false off data.length (some s) true sdt_ign
       else scr_deliver false fin off data winMax s) := rfl
  rw [hred]
  constructor
  · intro hle
    split
    · intro hh
      exact absurd (SCRes.err.inj hh) (by decide)
    · split
      · rw [scr_finish_some, if_neg (fun hc => absurd hc.2 (by omega))]
        exact fun hh => SCRes.noConfusion hh
      · exact hcore.1 hle
  · intro hsid hgt
    rw [if_neg (by omega)]
    split
    · rw [scr_finish_some, if_pos ⟨rfl, by omega⟩]
    · exact hcore.2 hgt

/-- Witness for `stream_flow_control_error`: a 96-byte frame at offset 5 on a
stream whose advertised maximum is 100 closes with FLOW_CONTROL. -/
theorem stream_flow_control_error_witness :
    dec_stream_or_crypto_frame true false false 0 8 5 (List.replicate 96 7) 64
      64 (some ⟨strm_open, 5, [], [], 100⟩) false =
      SCRes.err ERR_FLOW_CONTROL :=
  (stream_flow_control_error true false 0 8 5 (List.replicate 96 7) 64 64
    ⟨strm_open, 5, [], [], 100⟩ false (by decide) (by decide) (by decide)
    (by decide)).2 (by decide) (by decide)

/-! ## Claims about duplicate suppression and trimming (C1) -/

@[simp]
theorem do_stream_fc_in_q (t : q_stream) (w : Nat) :
    (do_stream_fc t w).in_q = t.in_q := by
  unfold do_stream_fc
  split <;> rfl

@[simp]
theorem do_stream_fc_in_data_off (t : q_stream) (w : Nat) :
    (do_stream_fc t w).in_data_off = t.in_data_off := by
  unfold do_stream_fc
  split <;> rfl

theorem scr_finish_ok_inv (isCry : Bool) (a b : Nat) (t : q_stream)
    (ign1 : Bool) (k1 : strm_data_type) (s' : q_stream) (ign : Bool)
    (k : strm_data_type)
    (h : scr_finish isCry a b (some t) ign1 k1 = SCRes.ok (some s') ign k) :
    s' = t := by
  rw [scr_finish_some] at h
  split at h
  · exact SCRes.noConfusion h
  · injection h with h1 h2 h3
    exact (Option.some.inj h1).symm

theorem scr_deliver_shape (isCry finB : Bool) (off : Nat) (data : List Nat)
    (winMax : Nat) (s s' : q_stream) (ign : Bool) (k : strm_data_type)
    (h : scr_deliver isCry finB off data winMax s = SCRes.ok (some s') ign k) :
    (∃ app, s'.in_q = s.in_q ++ app ∧ (∀ g ∈ app, s.in_data_off ≤ g.off)
      ∧ s'.in_data_off = s.in_data_off + segsLen app)
    ∧ (off ≤ s.in_data_off → s.in_data_off < off + data.length →
        s.state ≠ strm_hcrm → s.state ≠ strm_clsd →
        ∃ app2, s'.in_q = s.in_q ++
          (⟨s.in_data_off, data.drop (s.in_data_off - off), finB⟩ :: app2)) := by
  revert h
  simp only [scr_deliver]
  split
  · next hbest =>
    split
    · next hstate =>
      intro h
      rw [scr_finish_ok_inv _ _ _ _ _ _ _ _ _ h]
      refine ⟨⟨[], by simp, by simp, by simp⟩, ?_⟩
      intro _ _ h3 h4
      rcases hstate with hs | hs
      · exact absurd hs h3
      · exact absurd hs h4
    · next hstate =>
      intro h
      have hs' := scr_finish_ok_inv _ _ _ _ _ _ _ _ _ h
      have hq := deq_ooo_spec s.in_ooo (s.in_data_off +
        (if s.in_data_off > off then
          trim_frame ⟨off, data, finB⟩ s.in_data_off
        else (⟨off, data, finB⟩ : Frag)).data.length)
      have hm1off : s.in_data_off ≤
          (if s.in_data_off > off then
            trim_frame ⟨off, data, finB⟩ s.in_data_off
          else (⟨off, data, finB⟩ : Frag)).off := by
        split
        · simp only [trim_frame]
          omega
        · next hnt =>
          simp only
          omega
      have hinq : s'.in_q = s.in_q ++
          ((if s.in_data_off > off then
            trim_frame ⟨off, data, finB⟩ s.in_data_off
          else (⟨off, data, finB⟩ : Frag)) ::
          (deq_ooo s.in_ooo (s.in_data_off +
            (if s.in_data_off > off then
              trim_frame ⟨off, data, finB⟩ s.in_data_off
            else (⟨off, data, finB⟩ : Frag)).data.length)).1) := by
        rw [hs']
        split <;> simp
      have hoff : s'.in_data_off = s.in_data_off +
          segsLen ((if s.in_data_off > off then
            trim_frame ⟨off, data, finB⟩ s.in_data_off
          else (⟨off, data, finB⟩ : Frag)) ::
          (deq_ooo s.in_ooo (s.in_data_off +
            (if s.in_data_off > off then
              trim_frame ⟨off, data, finB⟩ s.in_data_off
            else (⟨off, data, finB⟩ : Frag)).data.length)).1) := by
        rw [hs']
        split <;> (simp only [do_stream_fc_in_data_off, segsLen_cons]; omega)
      refine ⟨⟨_, hinq, ?_, hoff⟩, ?_⟩
      · intro g hg
        rcases List.mem_cons.mp hg with hg | hg
        · rw [hg]
          exact hm1off
        · have := hq.2.2 g hg
          omega
      · intro h1 h2 _ _
        have hm1 : (if s.in_data_off > off then
            trim_frame ⟨off, data, finB⟩ s.in_data_off
          else (⟨off, data, finB⟩ : Frag)) =
            ⟨s.in_data_off, data.drop (s.in_data_off - off), finB⟩ := by
          split
          · simp [trim_frame]
            omega
          · next hnt =>
            have : s.in_data_off = off := by omega
            simp [this]
        refine ⟨(deq_ooo s.in_ooo (s.in_data_off +
          (if s.in_data_off > off then
            trim_frame ⟨off, data, finB⟩ s.in_data_off
          else (⟨off, data, finB⟩ : Frag)).data.length)).1, ?_⟩
        rw [hinq, hm1]
  · next hnbest =>
    split
    · next hdup =>
      intro h
      rw [scr_finish_ok_inv _ _ _ _ _ _ _ _ _ h]
      refine ⟨⟨[], by simp, by simp, by simp⟩, ?_⟩
      intro _ h2 _ _
      omega
    · split
      · next hstate =>
        intro h
        rw [scr_finish_ok_inv _ _ _ _ _ _ _ _ _ h]
        refine ⟨⟨[], by simp, by simp, by simp⟩, ?_⟩
        intro _ _ h3 h4
        rcases hstate with hs | hs
        · exact absurd hs h3
        · exact absurd hs h4
      · have hvac : ∀ t : q_stream, t.in_q = s.in_q → t.in_data_off =
            s.in_data_off →
            ((∃ app, t.in_q = s.in_q ++ app ∧
              (∀ g ∈ app, s.in_data_off ≤ g.off)
              ∧ t.in_data_off = s.in_data_off + segsLen app)
            ∧ (off ≤ s.in_data_off → s.in_data_off < off + data.length →
                s.state ≠ strm_hcrm → s.state ≠ strm_clsd →
                ∃ app2, t.in_q = s.in_q ++
                  (⟨s.in_data_off, data.drop (s.in_data_off - off), finB⟩ ::
                    app2))) := by
          intro t ht1 ht2
          refine ⟨⟨[], by simp [ht1], by simp, by simp [ht2]⟩, ?_⟩
          intro h1 h2 _ _
          exact absurd ⟨h1, by
            unfold sd_last
            split <;> omega⟩ hnbest
        split
        · split
          · intro h
            rw [scr_finish_ok_inv _ _ _ _ _ _ _ _ _ h]
            exact hvac s rfl rfl
          · intro h
            rw [scr_finish_ok_inv _ _ _ _ _ _ _ _ _ h]
            exact hvac _ rfl rfl
        · intro h
          rw [scr_finish_ok_inv _ _ _ _ _ _ _ _ _ h]
          exact hvac _ rfl rfl

/-- C1, counterexample: a zero-length FIN frame at exactly `in_data_off`
satisfies the claim's duplicate condition `off + len ≤ in_data_off`, yet it
is not dropped as a duplicate: it is delivered (`sdt_seq`), an empty FIN
fragment is queued, and the stream transitions to half-closed-remote. -/
theorem stream_rx_zero_len_fin_not_dropped :
    5 + ([] : List Nat).length ≤ 5
    ∧ dec_stream_or_crypto_frame true false true 0 8 5 [] 100 100
        (some ⟨strm_open, 5, [⟨0, [1, 2, 3, 4, 5], false⟩], [], 100⟩) false =
      SCRes.ok (some ⟨strm_hcrm, 5,
        [⟨0, [1, 2, 3, 4, 5], false⟩, ⟨5, [], true⟩], [], 100⟩) false sdt_seq
    ∧ strm_hcrm ≠ strm_open := by decide

theorem c1_core (isCry finB : Bool) (off : Nat) (data : List Nat)
    (winMax : Nat) (s : q_stream) (z : Prop) [Decidable z]
    (hz_len : z → data.length = 0) (hwf : s.in_data_off ≤ s.in_data_max) :
    (0 < data.length → off + data.length ≤ s.in_data_off →
      (if z then scr_finish isCry off data.length (some s) true sdt_ign
       else scr_deliver isCry finB off data winMax s) =
        SCRes.ok (some s) true sdt_dup)
    ∧ (∀ (s' : q_stream) (ign : Bool) (k : strm_data_type),
      (if z then scr_finish isCry off data.length (some s) true sdt_ign
       else scr_deliver isCry finB off data winMax s) =
        SCRes.ok (some s') ign k →
      (∃ app, s'.in_q = s.in_q ++ app ∧ (∀ g ∈ app, s.in_data_off ≤ g.off)
        ∧ s'.in_data_off = s.in_data_off + segsLen app)
      ∧ (off ≤ s.in_data_off → s.in_data_off < off + data.length →
          s.state ≠ strm_hcrm → s.state ≠ strm_clsd →
          ∃ app2, s'.in_q = s.in_q ++
            (⟨s.in_data_off, data.drop (s.in_data_off - off), finB⟩ ::
              app2))) := by
  constructor
  · intro hlen hdup
    rw [if_neg (fun hzz => absurd (hz_len hzz) (by omega))]
    simp only [scr_deliver]
    rw [if_neg (fun hb => absurd hb.2 (by
        unfold sd_last
        rw [if_pos hlen]
        omega)),
      if_pos hdup, scr_finish_some,
      if_neg (fun hc => absurd hc.2 (by omega))]
  · intro s' ign k h
    split at h
    · next hz =>
      have hz1 := hz_len hz
      have hs' : s' = s := scr_finish_ok_inv _ _ _ _ _ _ _ _ _ h
      refine ⟨⟨[], by simp [hs'], by simp, by simp [hs']⟩, ?_⟩
      intro h1 h2 _ _
      exact absurd h2 (by omega)
    · exact scr_deliver_shape isCry finB off data winMax s s' ign k h

/-- C1 (amended): on the stream receive path, no byte below the stream's
current `in_data_off` is ever appended to the in-order receive queue: every
appended fragment starts at or above the old `in_data_off`, and `in_data_off`
advances by exactly the total length appended (so it remains the total length
of contiguous in-order bytes delivered); a frame carrying at least one byte
whose whole range lies at or below `in_data_off` (`off + len ≤ in_data_off`)
is dropped as a complete duplicate (`sdt_dup`) with the stream unchanged; and
a frame straddling `in_data_off` on a deliverable stream has the prefix
`[off, in_data_off)` trimmed, the queued head fragment being exactly the
trimmed remainder.  (A zero-length FIN frame at exactly `in_data_off` is not
dropped but delivered, to transition the stream state.) -/
theorem stream_rx_no_redelivery (clnt isCry fin : Bool) (sid maxSid : Int)
    (off : Nat) (data : List Nat) (winMax initMax : Nat) (s : q_stream)
    (inClsd : Bool) (hsid : sid ≤ maxSid)
    (hwf : s.in_data_off ≤ s.in_data_max) :
    (0 < data.length → off + data.length ≤ s.in_data_off →
      dec_stream_or_crypto_frame clnt isCry fin sid maxSid off data winMax
        initMax (some s) inClsd = SCRes.ok (some s) true sdt_dup)
    ∧ (∀ (s' : q_stream) (ign : Bool) (k : strm_data_type),
      dec_stream_or_crypto_frame clnt isCry fin sid maxSid off data winMax
        initMax (some s) inClsd = SCRes.ok (some s') ign k →
      (∃ app, s'.in_q = s.in_q ++ app ∧ (∀ g ∈ app, s.in_data_off ≤ g.off)
        ∧ s'.in_data_off = s.in_data_off + segsLen app)
      ∧ (off ≤ s.in_data_off → s.in_data_off < off + data.length →
          s.state ≠ strm_hcrm → s.state ≠ strm_clsd →
          ∃ app2, s'.in_q = s.in_q ++
            (⟨s.in_data_off, data.drop (s.in_data_off - off),
              if isCry then false else fin⟩ :: app2))) := by
  cases isCry
  case false =>
    have hred : dec_stream_or_crypto_frame clnt false fin sid maxSid off data
        winMax initMax (some s) inClsd =
        (if maxSid < sid then SCRes.err ERR_STREAM_ID
         else if data.length = 0 ∧ fin = false then
           scr_finish false off data.length (some s) true sdt_ign
         else scr_deliver false fin off data winMax s) := rfl
    rw [hred, if_neg (by omega)]
    exact c1_core false fin off data winMax s (data.length = 0 ∧ fin = false)
      (fun hz => hz.1) hwf
  case true =>
    have hred : dec_stream_or_crypto_frame clnt true fin sid maxSid off data
        winMax initMax (some s) inClsd =
        (if maxSid < sid then SCRes.err ERR_STREAM_ID
         else if data.length = 0 ∧ (false : Bool) = false then
           scr_finish true off data.length (some s) true sdt_ign
         else scr_deliver true false off data winMax s) := rfl
    rw [hred, if_neg (by omega)]
    exact c1_core true false off data winMax s
      (data.length = 0 ∧ (false : Bool) = false) (fun hz => hz.1) hwf

/-- Witness for `stream_rx_no_redelivery`: a 3-byte frame at offset 1 on a
stream whose `in_data_off` is 5 is dropped as a complete duplicate. -/
theorem stream_rx_no_redelivery_witness :
    dec_stream_or_crypto_frame true false false 0 8 1 [9, 8, 7] 100 100
      (some ⟨strm_open, 5, [⟨0, [1, 2, 3, 4, 5], false⟩], [], 100⟩) false =
      SCRes.ok (some ⟨strm_open, 5, [⟨0, [1, 2, 3, 4, 5], false⟩], [], 100⟩)
        true sdt_dup :=
  (stream_rx_no_redelivery true false false 0 8 1 [9, 8, 7] 100 100
    ⟨strm_open, 5, [⟨0, [1, 2, 3, 4, 5], false⟩], [], 100⟩ false (by decide)
    (by decide)).1 (by decide) (by decide)

/-! ## Claims about RTT updates on ACK receipt (C4) -/

theorem proc_range_oar1 (ctx : pn_ctx) (cum : Option Nat) (lgFrm : Nat) :
    ∀ (fuel ack lo : Nat) (eff eff' : ack_eff),
      proc_range ctx cum lgFrm fuel ack lo eff = Except.ok eff' →
      ack ≤ lgFrm →
      eff'.lg_ack_in_frm = eff.lg_ack_in_frm ∧
      ∃ add, eff'.oar1 = eff.oar1 ++ add ∧ add.length ≤ 1 ∧
        (∀ p ∈ add, p.1 = lgFrm) ∧ (ack < lgFrm → add = []) := by
  intro fuel
  induction fuel with
  | zero =>
    intro ack lo eff eff' h hle
    simp only [proc_range] at h
    rw [← Except.ok.inj h]
    exact ⟨rfl, [], by simp, by simp, by simp, fun _ => rfl⟩
  | succ n ih =>
    intro ack lo eff eff' h hle
    simp only [proc_range] at h
    split at h
    · rw [← Except.ok.inj h]
      exact ⟨rfl, [], by simp, by simp, by simp, fun _ => rfl⟩
    · split at h
      · split at h
        · have hrec := ih (ack - 1) lo eff eff' h (by omega)
          refine ⟨hrec.1, ?_⟩
          obtain ⟨add, ha1, ha2, ha3, ha4⟩ := hrec.2
          exact ⟨add, ha1, ha2, ha3, fun hlt => ha4 (by omega)⟩
        · rw [← Except.ok.inj h]
          exact ⟨rfl, [], by simp, by simp, by simp, fun _ => rfl⟩
      · split at h
        · exact Except.noConfusion h
        · next m_acked heq =>
          split at h
          · next hlo =>
            have hrec := ih (ack - 1) lo _ eff' h (by omega)
            by_cases hal : ack = lgFrm
            · obtain ⟨add, ha1, ha2, ha3, ha4⟩ := hrec.2
              have hadd : add = [] := ha4 (by omega)
              rw [hadd, List.append_nil] at ha1
              refine ⟨hrec.1, [(ack, m_acked.ack_eliciting)], ?_, by simp,
                ?_, ?_⟩
              · rw [ha1]
                simp [hal]
              · intro p hp
                rw [List.mem_singleton.mp hp, hal]
              · intro hlt
                omega
            · obtain ⟨add, ha1, ha2, ha3, ha4⟩ := hrec.2
              refine ⟨hrec.1, add, ?_, ha2, ha3, fun hlt => ha4 (by omega)⟩
              rw [ha1]
              simp [hal]
          · rw [← Except.ok.inj h]
            by_cases hal : ack = lgFrm
            · refine ⟨rfl, [(ack, m_acked.ack_eliciting)], by simp [hal], by
                simp, ?_, fun hlt => by omega⟩
              intro p hp
              rw [List.mem_singleton.mp hp, hal]
            · exact ⟨rfl, [], by simp [hal], by simp, by simp, fun _ => rfl⟩

theorem dec_ack_loop_oar1 (ctx : pn_ctx) (cum : Option Nat) (lgFrm : Nat) :
    ∀ (n lg : Nat) (bs : List Nat) (eff eff' : ack_eff) (rest : List Nat),
      dec_ack_loop ctx cum lgFrm n lg bs eff = Except.ok (eff', rest) →
      lg ≤ lgFrm →
      eff'.lg_ack_in_frm = eff.lg_ack_in_frm ∧
      ∃ add, eff'.oar1 = eff.oar1 ++ add ∧ add.length ≤ 1 ∧
        (∀ p ∈ add, p.1 = lgFrm) ∧ (lg < lgFrm → add = []) := by
  intro n
  induction n with
  | zero =>
    intro lg bs eff eff' rest h hle
    simp only [dec_ack_loop] at h
    have hp := Except.ok.inj h
    rw [Prod.mk.injEq] at hp
    rw [← hp.1]
    exact ⟨rfl, [], by simp, by simp, by simp, fun _ => rfl⟩
  | succ m ih =>
    intro lg bs eff eff' rest h hle
    simp only [dec_ack_loop] at h
    split at h
    · exact Except.noConfusion h
    · next rng bs1 heq1 =>
      split at h
      · exact Except.noConfusion h
      · split at h
        · exact Except.noConfusion h
        · next hrng =>
          split at h
          · exact Except.noConfusion h
          · next eff1 heq2 =>
            have hpr := proc_range_oar1 ctx cum lgFrm (rng + 1) lg
              (lg - rng) eff eff1 heq2 hle
            obtain ⟨add1, ha1, ha2, ha3, ha4⟩ := hpr.2
            split at h
            · have hp := Except.ok.inj h
              have heff : eff' = { eff1 with
                  ranges := eff1.ranges ++ [(lg - rng, lg)] } :=
                (congrArg Prod.fst hp).symm
              refine ⟨by rw [heff]; exact hpr.1, add1, ?_, ha2, ha3, ha4⟩
              rw [heff]
              exact ha1
            · split at h
              · exact Except.noConfusion h
              · next gap bs2 heq3 =>
                split at h
                · exact Except.noConfusion h
                · next hgap =>
                  have hrec := ih (lg - rng - (gap + 2)) bs2 _ eff' rest h
                    (by omega)
                  obtain ⟨add2, hb1, hb2, hb3, hb4⟩ := hrec.2
                  have hadd2 : add2 = [] := hb4 (by omega)
                  rw [hadd2, List.append_nil] at hb1
                  have hmid : ({ eff1 with
                      ranges := eff1.ranges ++ [(lg - rng, lg)] } :
                        ack_eff).oar1 = eff1.oar1 := rfl
                  refine ⟨?_, add1, ?_, ha2, ha3, ha4⟩
                  · rw [hrec.1]
                    exact hpr.1
                  · rw [hb1, hmid]
                    exact ha1

/-- C4: while decoding one ACK frame, `on_ack_received_1` is invoked for at
most one acknowledged packet, and only for the packet whose number equals the
frame's `lg_ack_in_frm`; the RTT update it performs (modelled by
`on_ack_received_1_updates_rtt`) therefore happens at most once and only when
that largest acknowledged packet was ACK-eliciting — no other acknowledged
packet ever triggers an RTT update. -/
theorem rtt_update_once_largest_only (ctx : pn_ctx) (bs : List Nat)
    (eff : ack_eff) (rest : List Nat)
    (h : dec_ack_packet ctx bs = Except.ok (eff, rest)) :
    eff.oar1.length ≤ 1
    ∧ (∀ p ∈ eff.oar1, p.1 = eff.lg_ack_in_frm)
    ∧ (∀ p ∈ eff.oar1.filter (fun q => on_ack_received_1_updates_rtt q.2),
        p.1 = eff.lg_ack_in_frm ∧ p.2 = true) := by
  cases bs with
  | nil => exact Except.noConfusion h
  | cons t r =>
    replace h : dec_ack_frame ctx t r = Except.ok (eff, rest) := h
    simp only [dec_ack_frame] at h
    split at h
    · exact Except.noConfusion h
    · next lgv bs1 heq1 =>
      split at h
      · exact Except.noConfusion h
      · next draw bs2 heq2 =>
        split at h
        · exact Except.noConfusion h
        · split at h
          · exact Except.noConfusion h
          · next cnt bs3 heq3 =>
            split at h
            · exact Except.noConfusion h
            · next eff1 bs4 heq4 =>
              have hloop := dec_ack_loop_oar1 ctx
                (diet_min_hi ctx.acked_or_lost) lgv (cnt + 1) lgv bs3 _ eff1
                bs4 heq4 (le_refl lgv)
              have hlg : eff1.lg_ack_in_frm = lgv := hloop.1
              obtain ⟨add, ha1, ha2, ha3, _⟩ := hloop.2
              have ha1' : eff1.oar1 = add := ha1
              have hcon : eff.oar1 = add ∧ eff.lg_ack_in_frm = lgv := by
                split at h
                · split at h
                  · exact Except.noConfusion h
                  · split at h
                    · exact Except.noConfusion h
                    · split at h
                      · exact Except.noConfusion h
                      · have hp := Except.ok.inj h
                        rw [Prod.mk.injEq] at hp
                        rw [← hp.1]
                        exact ⟨ha1', hlg⟩
                · have hp := Except.ok.inj h
                  rw [Prod.mk.injEq] at hp
                  rw [← hp.1]
                  exact ⟨ha1', hlg⟩
              refine ⟨?_, ?_, ?_⟩
              · rw [hcon.1]
                exact ha2
              · intro p hp
                rw [hcon.2, hcon.1] at *
                exact ha3 p (by rw [← hcon.1]; exact hp)
              · intro p hp
                have hp' := List.mem_filter.mp hp
                constructor
                · rw [hcon.2]
                  exact ha3 p (by rw [← hcon.1]; exact hp'.1)
                · exact hp'.2

/-- Witness for `rtt_update_once_largest_only`: an ACK frame for packets 4-5
with packet 5 (the largest, ACK-eliciting) in the sent map. -/
theorem rtt_update_once_largest_only_witness :
    c4_witness_eff.oar1.length ≤ 1
    ∧ (∀ p ∈ c4_witness_eff.oar1, p.1 = c4_witness_eff.lg_ack_in_frm)
    ∧ (∀ p ∈ c4_witness_eff.oar1.filter
          (fun q => on_ack_received_1_updates_rtt q.2),
        p.1 = c4_witness_eff.lg_ack_in_frm ∧ p.2 = true) :=
  rtt_update_once_largest_only
    ⟨[], [(5, ⟨100, true⟩), (4, ⟨90, false⟩)], 0, 0⟩
    [2, 5, 0, 0, 1] c4_witness_eff [] (by decide)

theorem cum_covers_mono (cum : Option Nat) (p ack : Nat) (hp : p ≤ ack)
    (h : cum_covers cum ack = true) : cum_covers cum p = true := by
  cases cum <;> simp [cum_covers] at h ⊢ <;> try omega

theorem proc_range_covers (ctx : pn_ctx) (cum : Option Nat) (lgFrm : Nat) :
    ∀ (fuel ack lo : Nat) (eff eff' : ack_eff),
      proc_range ctx cum lgFrm fuel ack lo eff = Except.ok eff' →
      lo ≤ ack → ack - lo < fuel →
      ∀ p : Nat, lo ≤ p → p ≤ ack →
        diet_find ctx.acked_or_lost p = true
        ∨ (find_sent_pkt ctx.sent p).isSome = true
        ∨ cum_covers cum p = true := by
  intro fuel
  induction fuel with
  | zero =>
    intro ack lo eff eff' h hlo hfuel
    exact absurd hfuel (by omega)
  | succ n ih =>
    intro ack lo eff eff' h hlo hfuel p hp1 hp2
    simp only [proc_range] at h
    split at h
    · next hcum =>
      exact Or.inr (Or.inr (cum_covers_mono cum p ack hp2 hcum))
    · next hcum =>
      split at h
      · next hdiet =>
        split at h
        · next hrec =>
          by_cases hpa : p = ack
          · exact Or.inl (by rw [hpa]; simpa using hdiet)
          · exact ih (ack - 1) lo eff eff' h (by omega) (by omega) p
              (by omega) (by omega)
        · next hrec =>
          have hpa : p = ack := by omega
          exact Or.inl (by rw [hpa]; simpa using hdiet)
      · split at h
        · exact Except.noConfusion h
        · next m_acked heq =>
          split at h
          · next hrec =>
            by_cases hpa : p = ack
            · refine Or.inr (Or.inl ?_)
              rw [hpa, heq]
              rfl
            · exact ih (ack - 1) lo _ eff' h (by omega) (by omega) p
                (by omega) (by omega)
          · next hrec =>
            have hpa : p = ack := by omega
            refine Or.inr (Or.inl ?_)
            rw [hpa, heq]
            rfl

theorem proc_range_acked (ctx : pn_ctx) (cum : Option Nat) (lgFrm : Nat) :
    ∀ (fuel ack lo : Nat) (eff eff' : ack_eff),
      proc_range ctx cum lgFrm fuel ack lo eff = Except.ok eff' →
      eff'.ranges = eff.ranges ∧
      ∃ add, eff'.acked = eff.acked ++ add ∧
        ∀ p ∈ add, diet_find ctx.acked_or_lost p = false := by
  intro fuel
  induction fuel with
  | zero =>
    intro ack lo eff eff' h
    simp only [proc_range] at h
    rw [← Except.ok.inj h]
    exact ⟨rfl, [], by simp, by simp⟩
  | succ n ih =>
    intro ack lo eff eff' h
    simp only [proc_range] at h
    split at h
    · rw [← Except.ok.inj h]
      exact ⟨rfl, [], by simp, by simp⟩
    · split at h
      · next hdiet =>
        split at h
        · exact ih (ack - 1) lo eff eff' h
        · rw [← Except.ok.inj h]
          exact ⟨rfl, [], by simp, by simp⟩
      · next hdietneg =>
        split at h
        · exact Except.noConfusion h
        · next m_acked heq =>
          have hdiet : diet_find ctx.acked_or_lost ack = false := by
            simpa using hdietneg
          split at h
          · have hrec := ih (ack - 1) lo _ eff' h
            refine ⟨hrec.1, ?_⟩
            obtain ⟨add, ha1, ha2⟩ := hrec.2
            refine ⟨ack :: add, ?_, ?_⟩
            · rw [ha1]
              simp
            · intro p hp
              rcases List.mem_cons.mp hp with hp | hp
              · rw [hp]
                exact hdiet
              · exact ha2 p hp
          · rw [← Except.ok.inj h]
            refine ⟨rfl, [ack], by simp, ?_⟩
            intro p hp
            rw [List.mem_singleton.mp hp]
            exact hdiet

theorem dec_ack_loop_covers (ctx : pn_ctx) (cum : Option Nat) (lgFrm : Nat) :
    ∀ (n lg : Nat) (bs : List Nat) (eff eff' : ack_eff) (rest : List Nat),
      dec_ack_loop ctx cum lgFrm n lg bs eff = Except.ok (eff', rest) →
      (∀ r ∈ eff.ranges, ∀ p : Nat, r.1 ≤ p → p ≤ r.2 →
        diet_find ctx.acked_or_lost p = true
        ∨ (find_sent_pkt ctx.sent p).isSome = true
        ∨ cum_covers cum p = true) →
      (∀ p ∈ eff.acked, diet_find ctx.acked_or_lost p = false) →
      (∀ r ∈ eff'.ranges, ∀ p : Nat, r.1 ≤ p → p ≤ r.2 →
        diet_find ctx.acked_or_lost p = true
        ∨ (find_sent_pkt ctx.sent p).isSome = true
        ∨ cum_covers cum p = true)
      ∧ (∀ p ∈ eff'.acked, diet_find ctx.acked_or_lost p = false) := by
  intro n
  induction n with
  | zero =>
    intro lg bs eff eff' rest h hir hia
    simp only [dec_ack_loop] at h
    have hp := Except.ok.inj h
    rw [Prod.mk.injEq] at hp
    rw [← hp.1]
    exact ⟨hir, hia⟩
  | succ m ih =>
    intro lg bs eff eff' rest h hir hia
    simp only [dec_ack_loop] at h
    split at h
    · exact Except.noConfusion h
    · next rng bs1 heq1 =>
      split at h
      · exact Except.noConfusion h
      · split at h
        · exact Except.noConfusion h
        · next hrng =>
          split at h
          · exact Except.noConfusion h
          · next eff1 heq2 =>
            have hpa := proc_range_acked ctx cum lgFrm (rng + 1) lg
              (lg - rng) eff eff1 heq2
            obtain ⟨hranges1, add, hadd1, hadd2⟩ := hpa
            have hcov := proc_range_covers ctx cum lgFrm (rng + 1) lg
              (lg - rng) eff eff1 heq2 (by omega) (by omega)
            have hir1 : ∀ r ∈ (({ eff1 with ranges :=
                eff1.ranges ++ [(lg - rng, lg)] } : ack_eff)).ranges,
                ∀ p : Nat, r.1 ≤ p → p ≤ r.2 →
                diet_find ctx.acked_or_lost p = true
                ∨ (find_sent_pkt ctx.sent p).isSome = true
                ∨ cum_covers cum p = true := by
              intro r hr
              rcases List.mem_append.mp hr with hr | hr
              · rw [hranges1] at hr
                exact hir r hr
              · rw [List.mem_singleton.mp hr]
                intro p hp1 hp2
                exact hcov p hp1 hp2
            have hia1 : ∀ p ∈ (({ eff1 with ranges :=
                eff1.ranges ++ [(lg - rng, lg)] } : ack_eff)).acked,
                diet_find ctx.acked_or_lost p = false := by
              intro p hp
              have hp' : p ∈ eff.acked ++ add := by rw [← hadd1]; exact hp
              rcases List.mem_append.mp hp' with hp'' | hp''
              · exact hia p hp''
              · exact hadd2 p hp''
            split at h
            · have hp := Except.ok.inj h
              rw [Prod.mk.injEq] at hp
              rw [← hp.1]
              exact ⟨hir1, hia1⟩
            · split at h
              · exact Except.noConfusion h
              · next gap bs2 heq3 =>
                split at h
                · exact Except.noConfusion h
                · exact ih (lg - rng - (gap + 2)) bs2 _ eff' rest h hir1 hia1

/-- C5, counterexample: the acked-or-lost set `{[3,5]}` has cumulative-ack
point 5, so an ACK for packet number 1 — which is neither in the
acked-or-lost set nor in the (empty) sent-packet map — is skipped by the
cumulative-ack shortcut (frame.c:569-571) instead of closing the connection
with PROTOCOL_VIOLATION; `on_pkt_acked` never runs. -/
theorem ack_below_cum_ack_not_violation :
    dec_ack_packet ⟨[(3, 5)], [], 0, 0⟩ [2, 1, 0, 0, 0] =
      Except.ok ({ lg_ack_in_frm := 1, ack_delay_raw := 0,
                   ranges := [(1, 1)], oar1 := [], acked := [],
                   ecn_ce_event := false, got_new_ack := false }, [])
    ∧ diet_find [(3, 5)] 1 = false
    ∧ find_sent_pkt [] 1 = none := by decide

/-- C5 (amended): when an ACK frame is processed to completion (no close),
every packet number covered by its ranges is accounted for: already in the
acked-or-lost set, present in the sent-packet map, or at or below the
cumulative-ack point (the high end of the lowest acked-or-lost interval) —
so an acked PN that is none of these closes the connection with
PROTOCOL_VIOLATION, as the single-packet-ACK conjunct shows; and packet
numbers already recorded as acked-or-lost are never passed to
`on_pkt_acked`. -/
theorem ack_never_sent_protocol_violation (ctx : pn_ctx) (bs : List Nat)
    (eff : ack_eff) (rest : List Nat)
    (h : dec_ack_packet ctx bs = Except.ok (eff, rest)) :
    (∀ r ∈ eff.ranges, ∀ p : Nat, r.1 ≤ p → p ≤ r.2 →
      ack_pn_accounted ctx p)
    ∧ (∀ p ∈ eff.acked, diet_find ctx.acked_or_lost p = false)
    ∧ (∀ (pn delay : Nat), pn < 2 ^ 62 → delay ≤ 2147483647 →
        diet_find ctx.acked_or_lost pn = false →
        find_sent_pkt ctx.sent pn = none →
        cum_covers (diet_min_hi ctx.acked_or_lost) pn = false →
        dec_ack_packet ctx (FRM_ACK :: (encv pn ++ encv delay ++ encv 0 ++
          encv 0)) = Except.error ERR_PROTOCOL_VIOLATION) := by
  have hmain : (∀ r ∈ eff.ranges, ∀ p : Nat, r.1 ≤ p → p ≤ r.2 →
      ack_pn_accounted ctx p)
      ∧ (∀ p ∈ eff.acked, diet_find ctx.acked_or_lost p = false) := by
    cases bs with
    | nil => exact Except.noConfusion h
    | cons t r =>
      replace h : dec_ack_frame ctx t r = Except.ok (eff, rest) := h
      simp only [dec_ack_frame] at h
      split at h
      · exact Except.noConfusion h
      · next lgv bs1 heq1 =>
        split at h
        · exact Except.noConfusion h
        · next draw bs2 heq2 =>
          split at h
          · exact Except.noConfusion h
          · split at h
            · exact Except.noConfusion h
            · next cnt bs3 heq3 =>
              split at h
              · exact Except.noConfusion h
              · next eff1 bs4 heq4 =>
                have hloop := dec_ack_loop_covers ctx
                  (diet_min_hi ctx.acked_or_lost) lgv (cnt + 1) lgv bs3 _
                  eff1 bs4 heq4 (by simp) (by simp)
                have hcon : eff.ranges = eff1.ranges ∧
                    eff.acked = eff1.acked := by
                  split at h
                  · split at h
                    · exact Except.noConfusion h
                    · split at h
                      · exact Except.noConfusion h
                      · split at h
                        · exact Except.noConfusion h
                        · have hp := Except.ok.inj h
                          rw [Prod.mk.injEq] at hp
                          rw [← hp.1]
                          exact ⟨rfl, rfl⟩
                  · have hp := Except.ok.inj h
                    rw [Prod.mk.injEq] at hp
                    rw [← hp.1]
                    exact ⟨rfl, rfl⟩
                rw [hcon.1, hcon.2]
                exact ⟨fun r hr p hp1 hp2 => hloop.1 r hr p hp1 hp2,
                  hloop.2⟩
  refine ⟨hmain.1, hmain.2, ?_⟩
  intro pn delay hpn hdelay hdiet hsent hcum
  have h0 : decv (encv 0) = some (0, []) := by
    have h00 := decv_encv 0 (by omega) []
    rwa [List.append_nil] at h00
  have hg1 : ¬(2147483647 < delay) := by omega
  have hpr : ∀ e : ack_eff, proc_range ctx (diet_min_hi ctx.acked_or_lost)
      pn 1 pn pn e = Except.error ERR_PROTOCOL_VIOLATION := by
    intro e
    simp [proc_range, hcum, hdiet, hsent]
  have hloop1 : ∀ e : ack_eff, dec_ack_loop ctx
      (diet_min_hi ctx.acked_or_lost) pn 1 pn (encv 0) e =
      Except.error ERR_PROTOCOL_VIOLATION := by
    intro e
    simp [dec_ack_loop, h0, hpr e]
  show dec_ack_frame ctx FRM_ACK (encv pn ++ encv delay ++ encv 0 ++ encv 0)
    = Except.error ERR_PROTOCOL_VIOLATION
  rw [List.append_assoc, List.append_assoc]
  simp [dec_ack_frame, decv_encv pn hpn, decv_encv delay (by omega),
    decv_encv 0 (by omega), hg1, hloop1]

/-- Witness for `ack_never_sent_protocol_violation`: an ACK for packet 5,
which is in the sent map. -/
theorem ack_never_sent_protocol_violation_witness :
    (∀ r ∈ c5_witness_eff.ranges, ∀ p : Nat, r.1 ≤ p → p ≤ r.2 →
      ack_pn_accounted c5_witness_ctx p)
    ∧ (∀ p ∈ c5_witness_eff.acked,
        diet_find c5_witness_ctx.acked_or_lost p = false)
    ∧ (∀ (pn delay : Nat), pn < 2 ^ 62 → delay ≤ 2147483647 →
        diet_find c5_witness_ctx.acked_or_lost pn = false →
        find_sent_pkt c5_witness_ctx.sent pn = none →
        cum_covers (diet_min_hi c5_witness_ctx.acked_or_lost) pn = false →
        dec_ack_packet c5_witness_ctx (FRM_ACK :: (encv pn ++ encv delay ++
          encv 0 ++ encv 0)) = Except.error ERR_PROTOCOL_VIOLATION) :=
  ack_never_sent_protocol_violation c5_witness_ctx [2, 5, 0, 0, 0]
    c5_witness_eff [] (by decide)

theorem wf_head (lo hi : Nat) (R : List (Nat × Nat))
    (h : wf_ranges_desc ((lo, hi) :: R) = true) :
    lo ≤ hi ∧ hi - lo ≤ 1048560 ∧ hi < 4611686018427387904 := by
  cases R with
  | nil =>
    simp [wf_ranges_desc] at h
    omega
  | cons p R' =>
    obtain ⟨a, b⟩ := p
    simp [wf_ranges_desc] at h
    omega

theorem proc_range_cum_skip (ctx : pn_ctx) (cum : Option Nat)
    (lgFrm fuel ack lo : Nat) (eff : ack_eff)
    (hc : cum_covers cum ack = true) :
    proc_range ctx cum lgFrm (fuel + 1) ack lo eff = Except.ok eff := by
  simp [proc_range, hc]

theorem dec_ack_loop_enc (ctx : pn_ctx) (c lgFrm : Nat) :
    ∀ (R : List (Nat × Nat)) (lo hi : Nat) (tail : List Nat) (eff : ack_eff),
      wf_ranges_desc ((lo, hi) :: R) = true → hi ≤ c →
      dec_ack_loop ctx (some c) lgFrm (R.length + 1) hi
        (encv (hi - lo) ++ (enc_ack_ranges R lo ++ tail)) eff =
      Except.ok ({ eff with ranges := eff.ranges ++ ((lo, hi) :: R) },
        tail) := by
  intro R
  induction R with
  | nil =>
    intro lo hi tail eff hwf hc
    simp only [wf_ranges_desc, Bool.and_eq_true, decide_eq_true_eq] at hwf
    obtain ⟨⟨h1, h2⟩, h3⟩ := hwf
    have hg1 : ¬(65535 * 16 < hi - lo) := by omega
    have hg2 : ¬(hi < hi - lo) := by omega
    have hcc : cum_covers (some c) hi = true := by
      simp [cum_covers]; omega
    have hsub : hi - (hi - lo) = lo := by omega
    simp only [List.length_nil, enc_ack_ranges, List.nil_append,
      dec_ack_loop, List.append_assoc, decv_encv (hi - lo) (by omega),
      hg1, if_false, hg2, proc_range_cum_skip ctx (some c) lgFrm _ _ _ _ hcc,
      hsub]
    simp
  | cons p R' ih =>
    obtain ⟨lo2, hi2⟩ := p
    intro lo hi tail eff hwf hc
    simp only [wf_ranges_desc, Bool.and_eq_true, decide_eq_true_eq] at hwf
    obtain ⟨⟨⟨⟨h1, h2⟩, h3⟩, h4⟩, hwf'⟩ := hwf
    have hg1 : ¬(65535 * 16 < hi - lo) := by omega
    have hg2 : ¬(hi < hi - lo) := by omega
    have hcc : cum_covers (some c) hi = true := by
      simp [cum_covers]; omega
    have hsub : hi - (hi - lo) = lo := by omega
    have hlo0 : lo ≠ 0 := by omega
    have hgg : ¬(lo < lo - hi2 - 2 + 2) := by omega
    have hlg : lo - (lo - hi2 - 2 + 2) = hi2 := by omega
    have hrec := ih lo2 hi2 tail
      ({ eff with ranges := eff.ranges ++ [(lo, hi)] }) hwf' (by omega)
    rw [List.length_cons, dec_ack_loop.eq_2]
    simp only [enc_ack_ranges, hlo0, if_true, ne_eq, not_false_eq_true,
      if_neg, List.append_assoc, decv_encv (hi - lo) (by omega), hg1,
      if_false, hg2, proc_range_cum_skip ctx (some c) lgFrm _ _ _ _ hcc,
      hsub, decv_encv (lo - hi2 - 2) (by omega), hgg, hlg,
      Nat.succ_ne_zero]
    refine hrec.trans ?_
    simp

/-- C2, counterexample: the single receive range `[0, 1048561]` spans one
more than `UINT16_MAX << 4` packet numbers; `enc_ack_frame` emits it
happily, but `dec_ack_frame`'s range-length guard (frame.c:525) rejects the
frame with `ERR_INTERNAL`, so the round-trip fails for this legitimate
receive-range set. -/
theorem ack_roundtrip_large_range_fails :
    dec_ack_packet ⟨[(0, 1048561)], [], 0, 0⟩
      (enc_ack_frame [(0, 1048561)] 0 0 0 0) =
      Except.error ERR_INTERNAL := by decide

/-- C2 (amended): ACK frames round-trip for every receive-range set in
descending wire order whose individual ranges each span at most
`UINT16_MAX << 4` packet numbers: decoding the frame emitted by
`enc_ack_frame` recovers exactly the ranges, the largest acked and the ACK
delay, consuming the whole frame, with no ack processed anew (the context
already records the received set, so the cumulative-ack point covers every
acked packet number). -/
theorem ack_roundtrip (lo0 hi0 : Nat) (Rt : List (Nat × Nat))
    (delay ect0 ect1 ce : Nat)
    (hwf : wf_ranges_desc ((lo0, hi0) :: Rt) = true)
    (hlen : Rt.length ≤ 254) (hd : delay ≤ 2147483647)
    (he0 : ect0 < 4611686018427387904) (he1 : ect1 < 4611686018427387904)
    (hec : ce < 4611686018427387904) :
    dec_ack_packet ⟨[(0, hi0)], [], ce, 0⟩
      (enc_ack_frame ((lo0, hi0) :: Rt) delay ect0 ect1 ce) =
      Except.ok ({ lg_ack_in_frm := hi0, ack_delay_raw := delay,
                   ranges := (lo0, hi0) :: Rt, oar1 := [], acked := [],
                   ecn_ce_event := false, got_new_ack := false }, []) := by
  obtain ⟨h1, h2, h3⟩ := wf_head lo0 hi0 Rt hwf
  have hdng : ¬(2147483647 < delay) := by omega
  have hloop := dec_ack_loop_enc (⟨[(0, hi0)], [], ce, 0⟩ : pn_ctx) hi0 hi0
    Rt lo0 hi0
  have hce : decv (encv ce) = some (ce, []) := by
    have h00 := decv_encv ce hec []
    rwa [List.append_nil] at h00
  by_cases hecn : ect0 ≠ 0 ∨ ect1 ≠ 0 ∨ ce ≠ 0
  · have henc : enc_ack_frame ((lo0, hi0) :: Rt) delay ect0 ect1 ce =
        FRM_ACE :: (encv hi0 ++ (encv delay ++ (encv Rt.length ++
          (encv (hi0 - lo0) ++ (enc_ack_ranges Rt lo0 ++
            (encv ect0 ++ (encv ect1 ++ encv ce))))))) := by
      simp [enc_ack_frame, enc_ack_ranges, if_pos hecn, hdng]
    rw [henc]
    simp only [dec_ack_packet, dec_ack_frame, decv_encv hi0 h3,
      decv_encv delay (by omega), if_neg hdng,
      decv_encv Rt.length (by omega), diet_min_hi,
      hloop (encv ect0 ++ (encv ect1 ++ encv ce))
        ({ lg_ack_in_frm := hi0, ack_delay_raw := delay, ranges := [],
           oar1 := [], acked := [], ecn_ce_event := false,
           got_new_ack := false } : ack_eff) hwf (Nat.le_refl hi0),
      reduceIte, decv_encv ect0 he0, decv_encv ect1 he1, hce]
    simp
  · have henc : enc_ack_frame ((lo0, hi0) :: Rt) delay ect0 ect1 ce =
        FRM_ACK :: (encv hi0 ++ (encv delay ++ (encv Rt.length ++
          (encv (hi0 - lo0) ++ (enc_ack_ranges Rt lo0 ++
            ([] : List Nat)))))) := by
      simp [enc_ack_frame, enc_ack_ranges, if_neg hecn, hdng, FRM_ACK, FRM_ACE]
    rw [henc]
    simp only [dec_ack_packet, dec_ack_frame, decv_encv hi0 h3,
      decv_encv delay (by omega), if_neg hdng,
      decv_encv Rt.length (by omega), diet_min_hi,
      hloop ([] : List Nat)
        ({ lg_ack_in_frm := hi0, ack_delay_raw := delay, ranges := [],
           oar1 := [], acked := [], ecn_ce_event := false,
           got_new_ack := false } : ack_eff) hwf (Nat.le_refl hi0),
      reduceIte]
    simp [FRM_ACK, FRM_ACE]

/-- Witness for `ack_roundtrip`: the two-range receive set
`{[4,10], [0,1]}` with a nonzero ECN counter round-trips through
`enc_ack_frame`/`dec_ack_frame`. -/
theorem ack_roundtrip_witness :
    dec_ack_packet ⟨[(0, 10)], [], 2, 0⟩
        (enc_ack_frame [(4, 10), (0, 1)] 3 1 0 2) =
      Except.ok ({ lg_ack_in_frm := 10, ack_delay_raw := 3,
                   ranges := [(4, 10), (0, 1)], oar1 := [], acked := [],
                   ecn_ce_event := false, got_new_ack := false }, []) :=
  ack_roundtrip 4 10 [(0, 1)] 3 1 0 2 (by decide) (by decide) (by decide)
    (by decide) (by decide) (by decide)
